import Mathlib

/-!
# Verification of the mcp-acme certificate orchestrator

Shallow embedding of the mcp-acme repository (Python): the Vault KV-v2
adapter (`adapters/vault.py`), the BIG-IP iControl adapter
(`adapters/bigip.py`), the issuance/renewal orchestrator
(`orchestrator.py`) and the REST error handlers (`server.py`,
`guided_api.py`).  Pure helpers are translated as Lean functions; the
effectful orchestrator is translated as a function from its parameters
plus an environment oracle (outcomes of the external ACME process, the
HTTP preflight polls, the secret store and the certificate parser) to
the list of observable effects (an event trace) together with the
result value.
-/

namespace Mcp

/-! ## Small string machinery (Python `str` operations on `List Char`) -/

/-- Python whitespace class for ASCII text (`str.strip` / regex `\s`):
space, tab, newline, carriage return, vertical tab, form feed. -/
def isPyWs (c : Char) : Bool :=
  c = ' ' || c = '\t' || c = '\n' || c = '\r' || c = '\x0b' || c = '\x0c'

/-- `stripPre pat s` returns `some rest` iff `s = pat ++ rest`
(used for Python `str.startswith` + slicing). -/
def stripPre : List Char → List Char → Option (List Char)
  | [], s => some s
  | _ :: _, [] => none
  | p :: ps, c :: cs => if p = c then stripPre ps cs else none

/-- Substring containment (`needle in haystack` in Python). -/
def hasSub (needle : List Char) : List Char → Bool
  | [] => (stripPre needle []).isSome
  | c :: cs => (stripPre needle (c :: cs)).isSome || hasSub needle cs

/-- `containsSub needle hay`: Python `needle in hay` on `String`s. -/
def containsSub (needle hay : String) : Bool :=
  hasSub needle.data hay.data

/-- Python `str.strip()` (whitespace both ends). -/
def pyStripChars (s : List Char) : List Char :=
  ((s.dropWhile isPyWs).reverse.dropWhile isPyWs).reverse

/-- Python `str.strip()` on `String`. -/
def pyStrip (s : String) : String :=
  ⟨pyStripChars s.data⟩

/-! ## `adapters/vault.py` — KV-v2 path normalization (`_normalize_kv2`) -/

/-- Translation of `_normalize_kv2` (adapters/vault.py lines 5-20):
`p = (path or "").strip().lstrip("/")`, then strip an optional `v1/`
and then an optional `secret/data/` front part. -/
def normalizeKv2Chars (path : List Char) : List Char :=
  let p := (pyStripChars path).dropWhile (· = '/')
  let p := match stripPre "v1/".data p with
    | some r => r
    | none => p
  match stripPre "secret/data/".data p with
  | some r => r
  | none => p

/-- `_normalize_kv2` on `String`s, as used by `Vault.read`/`Vault.write`. -/
def normalizeKv2 (path : String) : String :=
  ⟨normalizeKv2Chars path.data⟩

/-! ## `adapters/vault.py` — `Vault.read` -/

/-- A key/value JSON object (only string values occur in this code base). -/
abbrev KVMap := List (String × String)

/-- The part of an HTTP response that `Vault.read` inspects: the status
code and the value reached by `(j.get("data") or {}).get("data") or {}`.
`inner = none` collapses the cases "no `data` field", "`data` is null",
"no inner `data` field", "inner `data` null/falsy" — all of which the
`or {}` chain turns into the empty mapping. -/
structure VaultHttpResp where
  status : Nat
  inner : Option KVMap
  deriving Repr, DecidableEq

/-- Translation of `Vault.read` (adapters/vault.py lines 56-66): build the
URL from the normalized leaf, `raise_for_status()` (an exception for any
status in 400..599, re-raised as `RuntimeError(f"Vault read failed from
{url}: ...")`), otherwise return the inner `.data.data` object with
missing fields defaulting to the empty mapping. -/
def vaultRead (base path : String) (resp : VaultHttpResp) : Except String KVMap :=
  let url := base ++ "/v1/secret/data/" ++ normalizeKv2 path
  if 400 ≤ resp.status then
    .error ("Vault read failed from " ++ url)
  else
    .ok (resp.inner.getD [])

/-- Modelled from the spec (§4.5 "KV-v2 semantics", glossary): the
external KV-v2 secret server, which is not part of this repository,
answers a GET for an existing secret with HTTP 200 and the secret data
under `.data.data`, and answers a GET for a missing secret with
HTTP 404. -/
def kv2Response (secret : Option KVMap) : VaultHttpResp :=
  match secret with
  | some kv => ⟨200, some kv⟩
  | none => ⟨404, none⟩

/-! ## `adapters/bigip.py` — chunked upload (`_upload_octets`) -/

/-- The chunk size constant from `_upload_octets` (`chunk_size: int =
1024 * 1024`; no caller overrides it). -/
def CHUNK_SIZE : Nat := 1024 * 1024

/-- One POST of the chunked upload: the `Content-Range` bounds
(`offset`, exclusive `stop`) and the byte slice `content[offset:stop]`. -/
structure Chunk where
  start : Nat
  stop : Nat
  data : List Nat
  deriving Repr, DecidableEq

/-- The `Content-Range` header value of a chunk:
`f"{offset}-{end - 1}/{total}"` (no `bytes ` marker, end inclusive). -/
def contentRangeHeader (c : Chunk) (total : Nat) : String :=
  toString c.start ++ "-" ++ toString (c.stop - 1) ++ "/" ++ toString total

/-- The `while offset < total` loop of `_upload_octets` (adapters/bigip.py
lines 56-68): `end = min(offset + chunk_size, total)`, send
`content[offset:end]`, continue at `offset = end`. -/
def uploadLoop (content : List Nat) (offset : Nat) : List Chunk :=
  if _h : offset < content.length then
    let e := min (offset + CHUNK_SIZE) content.length
    ⟨offset, e, (content.drop offset).take (e - offset)⟩ :: uploadLoop content e
  else
    []
termination_by content.length - offset
decreasing_by
  simp only [CHUNK_SIZE] at *
  omega

/-- Translation of `_upload_octets` (adapters/bigip.py lines 43-70):
empty content raises `ValueError`; otherwise the chunk sequence of the
upload loop is produced (each chunk being one POST). -/
def uploadOctets (content : List Nat) : Except String (List Chunk) :=
  if content.length = 0 then
    .error "empty content for upload"
  else
    .ok (uploadLoop content 0)

/-- Contiguous coverage of the half-open interval `[s, t)` by a list of
`(start, stop)` ranges: consecutive, non-empty, gap- and overlap-free. -/
def rangesCover (s t : Nat) : List (Nat × Nat) → Prop
  | [] => s = t
  | (a, b) :: rest => a = s ∧ a < b ∧ rangesCover b t rest

/-! ## `adapters/bigip.py` — HTTP-01 token datagroup upsert

A Python `dict` is modelled as an association list whose keys are
unique; insertion keeps first-insertion order and overwrites in place,
exactly as `dict` does. -/

/-- One row of the internal string datagroup (`{name, data}`). -/
structure DGRecord where
  name : String
  data : String
  deriving Repr, DecidableEq

/-- First value bound to `k` (Python `dict` lookup `d.get(k)`). -/
def assocGet (l : List (String × String)) (k : String) : Option String :=
  match l with
  | [] => none
  | (k', v) :: rest => if k' = k then some v else assocGet rest k

/-- Python `d[k] = v`: overwrite in place if `k` is bound, else append. -/
def assocPut (l : List (String × String)) (k v : String) : List (String × String) :=
  match l with
  | [] => [(k, v)]
  | (k', v') :: rest =>
      if k' = k then (k', v) :: rest else (k', v') :: assocPut rest k v

/-- `existing = {r["name"]: r.get("data", "") for r in read_dg_records(...)}`
(adapters/bigip.py line 171): a dict comprehension, later duplicates
overwriting earlier ones. -/
def dictOfRecords (rs : List DGRecord) : List (String × String) :=
  rs.foldl (fun acc r => assocPut acc r.name r.data) []

/-- One iteration of the `for tok, ka in token_to_keyauth.items()` loop
of `upsert_http01_records` (adapters/bigip.py lines 173-176):
`if existing.get(tok) != ka: existing[tok] = ka; changed = True`. -/
def upsertStep (st : List (String × String) × Bool) (tk : String × String) :
    List (String × String) × Bool :=
  if assocGet st.1 tk.1 = some tk.2 then st else (assocPut st.1 tk.1 tk.2, true)

/-- The whole token loop of `upsert_http01_records`, threading the
`changed` flag. -/
def upsertFold (st : List (String × String) × Bool) (m : List (String × String)) :
    List (String × String) × Bool :=
  m.foldl upsertStep st

/-- Ordering of datagroup rows used by the write-back:
`sorted(existing.items())` sorts the `(name, data)` tuples, which for
distinct names is exactly sorting by `name`. -/
def pairLe (a b : String × String) : Prop := a.1 ≤ b.1

instance : DecidableRel pairLe := fun a b => by
  unfold pairLe; infer_instance

instance : IsTotal (String × String) pairLe :=
  ⟨fun a b => le_total a.1 b.1⟩

instance : IsTrans (String × String) pairLe :=
  ⟨fun _ _ _ h h' => le_trans h h'⟩

/-- Translation of `upsert_http01_records` (adapters/bigip.py lines
169-180): merge the incoming token map over the existing rows keyed by
`name`; if anything changed, write back the full records array sorted by
name (`some written`), otherwise perform no write (`none`).  The second
component is the returned count `len(token_to_keyauth)`. -/
def upsertHttp01Records (existingRecords : List DGRecord)
    (tokenToKeyauth : List (String × String)) : Option (List DGRecord) × Nat :=
  let ex := dictOfRecords existingRecords
  let res := upsertFold (ex, false) tokenToKeyauth
  (if res.2 then
     some ((res.1.insertionSort pairLe).map fun kv => ⟨kv.1, kv.2⟩)
   else none,
   tokenToKeyauth.length)

/-! ## `orchestrator.py` — `_extract_retry_after_iso`

The regex `retry after\s+([0-9]{4}-[0-9]{2}-[0-9]{2}\s+[0-9]{2}:[0-9]{2}:[0-9]{2})\s+UTC`
(case-insensitive) is implemented as a direct scanner: since `\s` and
`[0-9]` are disjoint from the literal characters that follow them, the
greedy match at any position is deterministic, and `re.search` takes the
leftmost matching position.  `datetime.strptime` validation and the
`"%Y-%m-%dT%H:%M:%SZ"` re-rendering are modelled on the parsed fields;
the digits are re-emitted in their captured fixed-width form. -/

/-- Case-insensitive literal match: `pat` is given in lowercase. -/
def ciStrip : List Char → List Char → Option (List Char)
  | [], s => some s
  | _ :: _, [] => none
  | p :: ps, c :: cs => if c.toLower = p then ciStrip ps cs else none

/-- Regex `\s+`: at least one whitespace char, consumed greedily. -/
def wsPlus : List Char → Option (List Char)
  | [] => none
  | c :: cs => if isPyWs c then some (cs.dropWhile isPyWs) else none

/-- Exactly `n` ASCII digits (`[0-9]{n}`), returning them and the rest. -/
def digitsN : Nat → List Char → Option (List Char × List Char)
  | 0, s => some ([], s)
  | _ + 1, [] => none
  | n + 1, c :: cs =>
      if c.isDigit then
        match digitsN n cs with
        | some (ds, rest) => some (c :: ds, rest)
        | none => none
      else none

/-- A single literal character. -/
def litChar (c : Char) : List Char → Option (List Char)
  | [] => none
  | c' :: cs => if c' = c then some cs else none

/-- The six captured digit groups of the retry-after timestamp. -/
structure RetryTs where
  year : List Char
  month : List Char
  day : List Char
  hour : List Char
  minute : List Char
  second : List Char
  deriving Repr, DecidableEq

/-- Match the full retry-after pattern at the head of `s`. -/
def matchRetryAt (s : List Char) : Option RetryTs :=
  match ciStrip "retry after".data s with
  | none => none
  | some s => match wsPlus s with
    | none => none
    | some s => match digitsN 4 s with
      | none => none
      | some (y, s) => match litChar '-' s with
        | none => none
        | some s => match digitsN 2 s with
          | none => none
          | some (mo, s) => match litChar '-' s with
            | none => none
            | some s => match digitsN 2 s with
              | none => none
              | some (d, s) => match wsPlus s with
                | none => none
                | some s => match digitsN 2 s with
                  | none => none
                  | some (h, s) => match litChar ':' s with
                    | none => none
                    | some s => match digitsN 2 s with
                      | none => none
                      | some (mi, s) => match litChar ':' s with
                        | none => none
                        | some s => match digitsN 2 s with
                          | none => none
                          | some (sec, s) => match wsPlus s with
                            | none => none
                            | some s => match ciStrip "utc".data s with
                              | none => none
                              | some _ => some ⟨y, mo, d, h, mi, sec⟩

/-- `re.search`: the match at the leftmost position where one exists. -/
def searchRetry : List Char → Option RetryTs
  | [] => matchRetryAt []
  | c :: cs =>
      match matchRetryAt (c :: cs) with
      | some m => some m
      | none => searchRetry cs

/-- Numeric value of a digit string. -/
def digitsToNat (ds : List Char) : Nat :=
  ds.foldl (fun acc c => acc * 10 + (c.toNat - '0'.toNat)) 0

/-- Gregorian leap year, as `datetime` uses. -/
def isLeapYear (y : Nat) : Bool :=
  y % 4 = 0 && (y % 100 ≠ 0 || y % 400 = 0)

/-- Days in a month, as `datetime` validates. -/
def daysInMonth (y m : Nat) : Nat :=
  if m = 2 then (if isLeapYear y then 29 else 28)
  else if m = 4 || m = 6 || m = 9 || m = 11 then 30
  else 31

/-- `datetime.strptime(ts, "%Y-%m-%d %H:%M:%S")` succeeds iff the fields
form a valid datetime (year 1..9999, valid month/day, time in range). -/
def validTs (t : RetryTs) : Bool :=
  let y := digitsToNat t.year
  let mo := digitsToNat t.month
  let d := digitsToNat t.day
  1 ≤ y && 1 ≤ mo && mo ≤ 12 && 1 ≤ d && d ≤ daysInMonth y mo &&
    digitsToNat t.hour ≤ 23 && digitsToNat t.minute ≤ 59 && digitsToNat t.second ≤ 59

/-- `dt.strftime("%Y-%m-%dT%H:%M:%SZ")` on the parsed fields, re-emitting
the captured fixed-width digit groups. -/
def renderIso (t : RetryTs) : String :=
  ⟨t.year ++ '-' :: t.month ++ '-' :: t.day ++ 'T' :: t.hour ++
    ':' :: t.minute ++ ':' :: t.second ++ ['Z']⟩

/-- Translation of `_extract_retry_after_iso` (orchestrator.py lines
40-49): `None` when the regex finds no match or the timestamp is
invalid, otherwise the ISO-8601 `Z` rendering. -/
def extractRetryAfterIso (txt : String) : Option String :=
  match searchRetry txt.data with
  | none => none
  | some t => if validTs t then some (renderIso t) else none

/-! ## `orchestrator.py` — data types, markers and command construction -/

/-- Python truthiness of an optional string (`if x:`): present and
non-empty. -/
def truthy : Option String → Bool
  | none => false
  | some s => s ≠ ""

/-- The `PROVIDERS` table with the `.get(provider, "custom")` default. -/
def PROVIDERS (p : String) : String :=
  if p = "lets-encrypt" then "https://acme-v02.api.letsencrypt.org/directory"
  else if p = "google" then "https://dv.acme-v02.api.pki.goog/directory"
  else if p = "zerossl" then "https://acme.zerossl.com/v2/DV90"
  else "custom"

/-- `key_type_map.get(key_type, "ec-256")` (orchestrator.py lines 104-106). -/
def keyTypeMap (kt : String) : String :=
  if kt = "EC256" then "ec-256"
  else if kt = "EC384" then "ec-384"
  else if kt = "RSA2048" then "2048"
  else if kt = "RSA3072" then "3072"
  else if kt = "RSA4096" then "4096"
  else "ec-256"

/-- Rate-limit markers (`"acme:error:rateLimited" in txt` or
`"too many certificates" in txt`). -/
def rateMarker (txt : String) : Bool :=
  containsSub "acme:error:rateLimited" txt || containsSub "too many certificates" txt

/-- EAB marker (`"externalAccountRequired" in txt`). -/
def eabMarker (txt : String) : Bool :=
  containsSub "externalAccountRequired" txt

/-- Reused-skip markers (orchestrator.py line 156). -/
def skipMarker (out : String) : Bool :=
  containsSub "Skipping. Next renewal time is:" out ||
    containsSub "Domains not changed." out

/-- Translation of `_acme_likely_succeeded` (orchestrator.py lines
583-596): any of the success needles occurs in the output. -/
def acmeLikelySucceeded (out : String) : Bool :=
  containsSub "is already verified, skipping http-01." out ||
  containsSub "Verification finished, beginning signing." out ||
  containsSub "Downloading cert." out ||
  containsSub "Cert success." out ||
  containsSub "Installing cert to:" out ||
  containsSub "Your cert is in:" out ||
  containsSub "full-chain cert is in:" out

/-- Orchestrator construction-time configuration (`Orchestrator.__init__`). -/
structure Config where
  acmeSh : String := "/usr/local/bin/acme.sh"
  work : String := "/work"
  acmeHome : String := "/opt/acme"
  acmeDebug : String := "0"
  defaultKeyType : String := "EC256"
  allowKeyExport : Bool := false
  deriving Repr, DecidableEq

/-- Python `str.lower()` on the ASCII flag values compared here. -/
def pyLower (s : String) : String := ⟨s.data.map Char.toLower⟩

/-- `Orchestrator._acme(*args)`: prepend the binary and `--home`, append
`--debug 2` when `ACME_DEBUG` is truthy. -/
def Config.acme (cfg : Config) (args : List String) : List String :=
  [cfg.acmeSh, "--home", cfg.acmeHome] ++ args ++
    (if pyLower cfg.acmeDebug = "1" || pyLower cfg.acmeDebug = "true" ||
        pyLower cfg.acmeDebug = "yes"
     then ["--debug", "2"] else [])

/-- `Orchestrator._dir_for(cert_id)`. -/
def Config.dirFor (cfg : Config) (certId : String) : String :=
  cfg.work ++ "/" ++ certId

/-- Parameters of `request_certificate(p)` as the orchestrator reads them
out of the request dict. -/
structure IssueParams where
  domains : List String := []
  provider : String := "lets-encrypt"
  directoryUrl : Option String := none
  keyType : Option String := none
  eabSecret : Option String := none
  contactEmails : List String := []
  tags : List String := []
  keySecretPath : Option String := none
  bigipHost : Option String := none
  bigipPartition : String := "/Common"
  datagroupName : String := "acme_challenge_dg"
  deriving Repr, DecidableEq

/-- Keyword arguments of `renew_certificate`. -/
structure RenewArgs where
  certId : String
  bigipHost : Option String := none
  partition : String := "/Common"
  dgName : String := "acme_challenge_dg"
  provider : Option String := none
  directoryUrl : Option String := none
  accountEmails : List String := []
  eabSecret : Option String := none
  deriving Repr, DecidableEq

/-- One persistent certificate record (the columns of the `certs` table
that the orchestrator reads and writes). -/
structure CertRec where
  certId : String
  mainDomain : String
  san : List String
  provider : String
  directoryUrl : String
  notBefore : Option String := none
  notAfter : Option String := none
  path : String
  keySecretPath : String
  tags : List String := []
  status : String
  deriving Repr, DecidableEq

/-- Observable effects of one orchestrator call, in program order.
`dgUpsert` effects come from the challenge-pump thread
(`_auto_publish_tokens_from_webroot`), which only ever starts after a
`watcherStart` effect. -/
inductive Event where
  | watcherStart (bigipHost partition dgName : String)
  | dgUpsert (partition dgName : String) (tokenMap : List (String × String))
  | runBg (argv : List String)
  | vaultRead (path : String)
  | preflight (hostname token expected : String)
  | finish
  | installCert (keyFile fullchainFile certFile : String)
  | vaultWrite (path keyText : String)
  | removeKey (path : String)
  | invCreate (rec : CertRec)
  | invStoreChallenges (certId : String) (challenges : List (String × String))
  | invUpdateDates (certId : String) (nb na : Option String)
  | invUpdateStatus (certId status : String)
  deriving Repr, DecidableEq

/-- Classification of the exceptions the orchestrator raises;
`message` below is Python `str(e)`. -/
inductive OrcError where
  | valueError (msg : String)
  | rateLimited (retryIso : Option String) (directoryUrl : String)
  | eabRequired (directoryUrl : String)
  | runtime (msg : String)
  deriving Repr, DecidableEq

/-- Python `str(e)` of a raised orchestrator exception:
`AcmeRateLimitError` and `AcmeEabRequiredError` are constructed with the
fixed `super().__init__` messages. -/
def OrcError.message : OrcError → String
  | .valueError m => m
  | .rateLimited _ _ => "ACME_RATE_LIMIT"
  | .eabRequired _ => "ACME_EAB_REQUIRED"
  | .runtime m => m

/-- Outcome of `_wait_for_challenge_files_or_proc`: whether challenge
files appeared, and otherwise the collected exit code and output. -/
structure WaitOutcome where
  hadFiles : Bool
  rc : Option Int := none
  out : String := ""
  err : String := ""
  deriving Repr, DecidableEq

/-- Outcome of `_finish(proc)` (`proc.communicate()`). -/
structure FinishOutcome where
  rc : Int := 0
  out : String := ""
  err : String := ""
  deriving Repr, DecidableEq

/-- Environment oracle for one `request_certificate` call: the values the
call obtains from the outside world (uuid, secret store, filesystem,
ACME process, public HTTP endpoint, certificate parser), in the order it
asks for them. -/
structure IssueEnv where
  /-- `uuid.uuid4()`. -/
  certId : String := "cid"
  /-- `vault.read(eab_secret)` result when an EAB secret is configured. -/
  eabData : KVMap := []
  /-- Token maps that the challenge-pump thread publishes to the
  datagroup while it runs (one `dgUpsert` REST call each). -/
  pumpUpserts : List (List (String × String)) := []
  /-- First `_wait_for_challenge_files_or_proc`. -/
  wait1 : WaitOutcome := ⟨false, some 0, "", ""⟩
  /-- `_collect_http01_challenges(webroot)` at the first preflight
  (token, keyAuthorization); the token is the challenge file basename,
  recovered from the stored path by `rsplit("/", 1)[-1]`. -/
  challenges1 : List (String × String) := []
  /-- Wait outcome of the force-issue rerun. -/
  wait2 : WaitOutcome := ⟨false, some 0, "", ""⟩
  /-- `_collect_http01_challenges` at the force-issue preflight. -/
  challenges2 : List (String × String) := []
  /-- Tokens whose `_wait_public_token` poll never sees the expected
  body and therefore raises after the timeout. -/
  preflightFail : List String := []
  /-- `_finish(proc)` of the first run. -/
  finish1 : FinishOutcome := {}
  /-- `_finish(proc2)` of the force-issue rerun. -/
  finish2 : FinishOutcome := {}
  /-- Whether the `--install-cert` subprocess (and the subsequent read
  of `privkey.pem`) succeeds. -/
  installOk : Bool := true
  /-- Content of `privkey.pem`. -/
  keyText : String := "KEY"
  /-- Whether `vault.write(key_secret_path, ...)` succeeds. -/
  vaultWriteOk : Bool := true
  /-- Whether the `openssl x509 -dates` subprocess of `_parse_dates`
  succeeds. -/
  parseOk : Bool := true
  /-- Parsed `notBefore=` / `notAfter=` values. -/
  notBefore : Option String := none
  notAfter : Option String := none
  /-- `_collect_http01_challenges(webroot)` after install (stored in the
  inventory and returned to the caller). -/
  challengesFinal : List (String × String) := []
  deriving Repr, DecidableEq

/-- The JSON object returned by a successful `request_certificate`. -/
structure IssueResult where
  certId : String
  status : String
  notBefore : Option String
  notAfter : Option String
  san : List String
  provider : String
  directoryUrl : String
  http01Files : List (String × String)
  deriving Repr, DecidableEq

/-! ## `orchestrator.py` — `request_certificate` -/

/-- The `_raise_for_known_errors` classification (rate limit first, then
EAB), also used after a non-zero `_finish`: `some` is a raised
exception.  The raw stdout/stderr carried by the Python exception
objects are not modelled (no caller reads them). -/
def classifyKnown (txt directoryUrl : String) : Option OrcError :=
  if rateMarker txt then some (.rateLimited (extractRetryAfterIso txt) directoryUrl)
  else if eabMarker txt then some (.eabRequired directoryUrl)
  else none

/-- `for ch in _collect_http01_challenges(webroot): ...
_wait_public_token(domains[0], tok, ka, 45, 0.5)`: one preflight poll
per observed challenge, aborting with `RuntimeError` at the first token
whose public URL never serves the expected body. -/
def preflightLoop (hostname : String) (chs : List (String × String))
    (fail : List String) : List Event × Option OrcError :=
  match chs with
  | [] => ([], none)
  | (tok, ka) :: rest =>
      if tok ∈ fail then
        ([.preflight hostname tok ka],
         some (.runtime ("Preflight failed: http://" ++ hostname ++
           "/.well-known/acme-challenge/" ++ tok ++
           " did not return expected body within 45s")))
      else
        let r := preflightLoop hostname rest fail
        (.preflight hostname tok ka :: r.1, r.2)

/-- The middle of `request_certificate` (orchestrator.py lines 137-214):
from the first `_wait_for_challenge_files_or_proc` up to (but not
including) the install step.  `none` as second component means the call
proceeds to the install step. -/
def issueWait (main : String) (bigipOn : Bool) (directoryUrl : String)
    (forceCmd : List String) (env : IssueEnv) : List Event × Option OrcError :=
  let w := env.wait1
  if w.hadFiles then
    -- Preflight public URL(s) before allowing ACME to finish
    let pf := if bigipOn then preflightLoop main env.challenges1 env.preflightFail
              else ([], none)
    match pf.2 with
    | some e => (pf.1, some e)
    | none =>
        let f := env.finish1
        if f.rc ≠ 0 then
          (pf.1 ++ [.finish],
           some ((classifyKnown (f.err ++ f.out) directoryUrl).getD
             (.runtime "acme.sh cmd failed")))
        else (pf.1 ++ [.finish], none)
  else
    if w.rc = some 0 ∧ acmeLikelySucceeded w.out then ([], none)
    else
      match classifyKnown (w.err ++ w.out) directoryUrl with
      | some e => ([], some e)
      | none =>
        if skipMarker w.out then
          -- Cert exists/skip: force-issue with the selected provider
          let w2 := env.wait2
          if ¬w2.hadFiles ∧ ¬(w2.rc = some 0 ∧ acmeLikelySucceeded w2.out) then
            ([.runBg forceCmd],
             some ((classifyKnown (w2.err ++ w2.out) directoryUrl).getD
               (.runtime "acme.sh force-issue did not produce HTTP-01 files and did not succeed.")))
          else
            let pf := if w2.hadFiles ∧ bigipOn then
                        preflightLoop main env.challenges2 env.preflightFail
                      else ([], none)
            match pf.2 with
            | some e => (.runBg forceCmd :: pf.1, some e)
            | none =>
                let f := env.finish2
                if f.rc ≠ 0 then
                  (.runBg forceCmd :: pf.1 ++ [.finish],
                   some ((classifyKnown (f.err ++ f.out) directoryUrl).getD
                     (.runtime "acme.sh force-issue failed")))
                else (.runBg forceCmd :: pf.1 ++ [.finish], none)
        else
          ([], some (.runtime "acme.sh produced no HTTP-01 token files."))

/-- The install/persist tail of `request_certificate` (orchestrator.py
lines 216-254): `--install-cert` normalizes the outputs into
`cert.pem` / `fullchain.pem` / `privkey.pem` under the working
directory, `privkey.pem` is read and written to the secret store, then
removed (best effort), dates are parsed, the inventory row is created
with status `"issued"`, and observed challenges are archived. -/
def installPhase (p : IssueParams) (env : IssueEnv)
    (wdir main provider directoryUrl keySecretPath : String) :
    List Event × Except OrcError IssueResult :=
  let certPem := wdir ++ "/cert.pem"
  let fullchainPem := wdir ++ "/fullchain.pem"
  let keyPem := wdir ++ "/privkey.pem"
  let e1 := Event.installCert keyPem fullchainPem certPem
  if ¬env.installOk then
    ([e1], .error (.runtime "acme.sh cmd failed"))
  else
    let e2 := Event.vaultWrite keySecretPath env.keyText
    if ¬env.vaultWriteOk then
      ([e1, e2], .error (.runtime ("Vault write failed to " ++ keySecretPath)))
    else
      let e3 := Event.removeKey keyPem
      if ¬env.parseOk then
        ([e1, e2, e3], .error (.runtime "acme.sh cmd failed"))
      else
        let newRec : CertRec :=
          { certId := env.certId, mainDomain := main, san := p.domains,
            provider := provider, directoryUrl := directoryUrl,
            notBefore := env.notBefore, notAfter := env.notAfter,
            path := wdir, keySecretPath := keySecretPath, tags := p.tags,
            status := "issued" }
        let e4 := Event.invCreate newRec
        let es := if env.challengesFinal.isEmpty then []
                  else [Event.invStoreChallenges env.certId env.challengesFinal]
        ([e1, e2, e3, e4] ++ es,
         .ok { certId := env.certId, status := "issued",
               notBefore := env.notBefore, notAfter := env.notAfter,
               san := p.domains, provider := provider,
               directoryUrl := directoryUrl,
               http01Files := env.challengesFinal })

/-- `directory = p.get("directory_url") or PROVIDERS.get(provider, "custom")`
(orchestrator.py line 83). -/
def issueDirectory (p : IssueParams) : String :=
  if truthy p.directoryUrl then p.directoryUrl.getD "" else PROVIDERS p.provider

/-- `directory_url = directory if directory != "custom" else p["directory_url"]`
(orchestrator.py line 86). -/
def issueDirectoryUrl (p : IssueParams) : String :=
  if issueDirectory p ≠ "custom" then issueDirectory p else p.directoryUrl.getD ""

/-- `acme_keylen` from the key-type map (orchestrator.py lines 88, 104-106). -/
def issueKeylen (cfg : Config) (p : IssueParams) : String :=
  keyTypeMap (if truthy p.keyType then p.keyType.getD "" else cfg.defaultKeyType)

/-- The per-issuance webroot `<work>/<cert_id>/webroot`. -/
def issueWebroot (cfg : Config) (env : IssueEnv) : String :=
  cfg.dirFor env.certId ++ "/webroot"

/-- `["--eab-kid", kid, "--eab-hmac-key", hmk]` when an EAB secret is
configured, else nothing. -/
def eabArgsOf (eabSecret : Option String) (eabData : KVMap) : List String :=
  if truthy eabSecret then
    ["--eab-kid", (assocGet eabData "kid").getD "",
     "--eab-hmac-key", (assocGet eabData "hmac_key").getD ""]
  else []

/-- `base_issue` (orchestrator.py line 112). -/
def issueBase (cfg : Config) (p : IssueParams) : List String :=
  ["--issue", "--server", issueDirectoryUrl p, "--keylength", issueKeylen cfg p]

/-- The `-d <domain> -w <webroot>` pairs, one per SAN. -/
def domainWebrootArgs (domains : List String) (webroot : String) : List String :=
  (domains.map fun d => ["-d", d, "-w", webroot]).flatten

/-- The `--accountemail <e>` pairs. -/
def emailArgsOf (emails : List String) : List String :=
  (emails.map fun e => ["--accountemail", e]).flatten

/-- `cmd_issue` (orchestrator.py lines 112-123). -/
def issueCmd (cfg : Config) (p : IssueParams) (env : IssueEnv) : List String :=
  cfg.acme (issueBase cfg p) ++ domainWebrootArgs p.domains (issueWebroot cfg env) ++
    emailArgsOf p.contactEmails ++ eabArgsOf p.eabSecret env.eabData

/-- `force_issue` (orchestrator.py lines 157-163): the same command with
`--force` appended to the base arguments. -/
def issueForceCmd (cfg : Config) (p : IssueParams) (env : IssueEnv) : List String :=
  cfg.acme (issueBase cfg p ++ ["--force"]) ++
    domainWebrootArgs p.domains (issueWebroot cfg env) ++
    emailArgsOf p.contactEmails ++ eabArgsOf p.eabSecret env.eabData

/-- The secret-store read performed for the EAB credentials, when
configured. -/
def issueEabEvts (p : IssueParams) : List Event :=
  if truthy p.eabSecret then [.vaultRead (p.eabSecret.getD "")] else []

/-- The challenge-pump thread start and its concurrent datagroup
upserts, recorded at thread start; nothing when no BIG-IP host is
given. -/
def issueWatcherEvts (p : IssueParams) (env : IssueEnv) : List Event :=
  if truthy p.bigipHost then
    Event.watcherStart (p.bigipHost.getD "") p.bigipPartition p.datagroupName ::
      env.pumpUpserts.map (Event.dgUpsert p.bigipPartition p.datagroupName)
  else []

/-- Everything `request_certificate` does before the first wait: the EAB
secret read, the watcher start, and launching the ACME process. -/
def issuePreEvts (cfg : Config) (p : IssueParams) (env : IssueEnv) : List Event :=
  issueEabEvts p ++ issueWatcherEvts p env ++ [Event.runBg (issueCmd cfg p env)]

/-- Translation of `Orchestrator.request_certificate` (orchestrator.py
lines 75-254), producing the event trace together with the result. -/
def requestCertificate (cfg : Config) (p : IssueParams) (env : IssueEnv) :
    List Event × Except OrcError IssueResult :=
  if p.domains.isEmpty then
    ([], .error (.valueError "At least one domain is required"))
  else if issueDirectory p = "custom" ∧ ¬truthy p.directoryUrl then
    ([], .error (.valueError "Custom provider requires directory_url"))
  else if ¬truthy p.keySecretPath then
    ([], .error (.valueError "key_secret_path (Vault KV v2) is required"))
  else if truthy p.eabSecret ∧ ¬(truthy (assocGet env.eabData "kid") ∧
      truthy (assocGet env.eabData "hmac_key")) then
    (issueEabEvts p, .error (.valueError "EAB secret missing kid/hmac_key fields"))
  else
    let mid := issueWait (p.domains.headD "") (truthy p.bigipHost)
      (issueDirectoryUrl p) (issueForceCmd cfg p env) env
    match mid.2 with
    | some e => (issuePreEvts cfg p env ++ mid.1, .error e)
    | none =>
        let ins := installPhase p env (cfg.dirFor env.certId) (p.domains.headD "")
          p.provider (issueDirectoryUrl p) (p.keySecretPath.getD "")
        (issuePreEvts cfg p env ++ mid.1 ++ ins.1, ins.2)

/-! ## `orchestrator.py` — `renew_certificate` -/

/-- Environment oracle for one `renew_certificate` call. -/
structure RenewEnv where
  /-- Token maps published by the challenge-pump thread. -/
  pumpUpserts : List (List (String × String)) := []
  /-- `vault.read(eab_secret)` result when an EAB secret is passed. -/
  eabData : KVMap := []
  /-- `_wait_for_challenge_files_or_proc`. -/
  wait1 : WaitOutcome := ⟨false, some 0, "", ""⟩
  /-- `_collect_http01_challenges(webroot)` at preflight time. -/
  challenges1 : List (String × String) := []
  /-- Tokens whose preflight poll times out. -/
  preflightFail : List String := []
  /-- `_finish(proc)`. -/
  finish1 : FinishOutcome := {}
  /-- Whether the `--install-cert` subprocess succeeds. -/
  installOk : Bool := true
  /-- Whether the `openssl x509 -dates` subprocess succeeds. -/
  parseOk : Bool := true
  /-- Parsed `notBefore=` / `notAfter=` values. -/
  notBefore : Option String := none
  notAfter : Option String := none
  deriving Repr, DecidableEq

/-- The JSON object returned by a successful `renew_certificate`. -/
structure RenewResult where
  certId : String
  status : String
  notAfter : Option String
  directoryUrl : String
  deriving Repr, DecidableEq

/-- `Inventory.get(cert_id)`: the row with the given primary key. -/
def invGet (inv : List CertRec) (cid : String) : Option CertRec :=
  inv.find? fun r => r.certId = cid

/-- `san = rec.get("san") or [main]` (orchestrator.py line 266). -/
def renewSan (rec : CertRec) : List String :=
  if rec.san.isEmpty then [rec.mainDomain] else rec.san

/-- `prev_dir = (rec.get("directory_url") or "").strip()`. -/
def renewPrevDir (rec : CertRec) : String :=
  pyStrip rec.directoryUrl

/-- The effective directory URL of a renew (orchestrator.py lines
268-272): the caller's non-empty value, else the stored one, else the
provider shortcut (with `custom` falling back to the stored value). -/
def renewDirectoryUrl (a : RenewArgs) (rec : CertRec) : String :=
  if truthy a.directoryUrl then a.directoryUrl.getD ""
  else
    let d0 := if renewPrevDir rec ≠ "" then renewPrevDir rec
              else PROVIDERS (if truthy a.provider then a.provider.getD ""
                              else "lets-encrypt")
    if d0 = "custom" then renewPrevDir rec else d0

/-- `migrate_ca = bool(directory_url and prev_dir and directory_url != prev_dir)`. -/
def renewMigrate (a : RenewArgs) (rec : CertRec) : Prop :=
  renewDirectoryUrl a rec ≠ "" ∧ renewPrevDir rec ≠ "" ∧
    renewDirectoryUrl a rec ≠ renewPrevDir rec

instance (a : RenewArgs) (rec : CertRec) : Decidable (renewMigrate a rec) :=
  inferInstanceAs (Decidable (renewDirectoryUrl a rec ≠ "" ∧
    renewPrevDir rec ≠ "" ∧ renewDirectoryUrl a rec ≠ renewPrevDir rec))

/-- The renew webroot `<rec.path>/webroot`. -/
def renewWebroot (rec : CertRec) : String := rec.path ++ "/webroot"

/-- The ACME argv of a renew (orchestrator.py lines 298-310): migrate-CA
re-issues with `--issue --server <new>`, otherwise `--renew` with
`--force` (passing `--server` only when a directory URL is known);
account emails are appended in both cases. -/
def renewCmd (cfg : Config) (a : RenewArgs) (rec : CertRec) (env : RenewEnv) :
    List String :=
  if renewMigrate a rec then
    cfg.acme (["--issue", "--server", renewDirectoryUrl a rec, "--keylength",
      "ec-256"] ++ eabArgsOf a.eabSecret env.eabData) ++
      domainWebrootArgs (renewSan rec) (renewWebroot rec) ++
      emailArgsOf a.accountEmails
  else
    cfg.acme (((if renewDirectoryUrl a rec ≠ "" then
        ["--server", renewDirectoryUrl a rec] else []) ++
      ["--renew", "-d", rec.mainDomain, "--force", "-w", renewWebroot rec]) ++
      eabArgsOf a.eabSecret env.eabData) ++ emailArgsOf a.accountEmails

/-- The renew watcher start plus its concurrent datagroup upserts. -/
def renewWatcherEvts (a : RenewArgs) (env : RenewEnv) : List Event :=
  if truthy a.bigipHost then
    Event.watcherStart (a.bigipHost.getD "") a.partition a.dgName ::
      env.pumpUpserts.map (Event.dgUpsert a.partition a.dgName)
  else []

/-- The secret-store read for EAB credentials on renew, when configured. -/
def renewEabEvts (a : RenewArgs) : List Event :=
  if truthy a.eabSecret then [.vaultRead (a.eabSecret.getD "")] else []

/-- Everything `renew_certificate` does before the first wait. -/
def renewPreEvts (cfg : Config) (a : RenewArgs) (rec : CertRec) (env : RenewEnv) :
    List Event :=
  renewWatcherEvts a env ++ renewEabEvts a ++ [Event.runBg (renewCmd cfg a rec env)]

/-- The middle of `renew_certificate` (orchestrator.py lines 314-338):
wait for files or exit, classify, preflight on files. -/
def renewMid (a : RenewArgs) (rec : CertRec) (env : RenewEnv) :
    List Event × Option OrcError :=
  let w := env.wait1
  if w.hadFiles then
    (if truthy a.bigipHost then
       preflightLoop rec.mainDomain env.challenges1 env.preflightFail
     else ([], none))
  else
    if w.rc = some 0 ∧ acmeLikelySucceeded w.out then ([], none)
    else if rateMarker (w.err ++ w.out) then
      ([], some (.rateLimited (extractRetryAfterIso (w.err ++ w.out))
        (renewDirectoryUrl a rec)))
    else
      ([], some (.runtime "acme.sh produced no HTTP-01 token files during renew."))

/-- The body of `renew_certificate` after the inventory lookup
(orchestrator.py lines 265-365). -/
def renewWithRec (cfg : Config) (a : RenewArgs) (rec : CertRec)
    (env : RenewEnv) : List Event × Except OrcError RenewResult :=
    if truthy a.eabSecret ∧ ¬(truthy (assocGet env.eabData "kid") ∧
        truthy (assocGet env.eabData "hmac_key")) then
      (renewWatcherEvts a env ++ renewEabEvts a,
       .error (.valueError "EAB secret missing kid/hmac_key fields"))
    else
      let pre := renewPreEvts cfg a rec env
      if eabMarker (env.wait1.err ++ env.wait1.out) then
        (pre, .error (.eabRequired (renewDirectoryUrl a rec)))
      else
        let mid := renewMid a rec env
        match mid.2 with
        | some e => (pre ++ mid.1, .error e)
        | none =>
          let f := env.finish1
          let txt := f.err ++ f.out
          if f.rc ≠ 0 then
            (pre ++ mid.1 ++ [.finish],
             .error (if rateMarker txt then
                       .rateLimited (extractRetryAfterIso txt)
                         (renewDirectoryUrl a rec)
                     else if eabMarker txt then
                       .eabRequired (renewDirectoryUrl a rec)
                     else if containsSub "is not an issued domain" txt then
                       .runtime "ACME_NOT_MANAGED"
                     else .runtime "acme.sh cmd failed"))
          else
            let e1 := Event.installCert (rec.path ++ "/privkey.pem")
              (rec.path ++ "/fullchain.pem") (rec.path ++ "/cert.pem")
            if ¬env.installOk then
              (pre ++ mid.1 ++ [.finish, e1], .error (.runtime "acme.sh cmd failed"))
            else
              let e2 := Event.removeKey (rec.path ++ "/privkey.pem")
              if ¬env.parseOk then
                (pre ++ mid.1 ++ [.finish, e1, e2],
                 .error (.runtime "acme.sh cmd failed"))
              else
                let e3 := Event.invUpdateDates a.certId env.notBefore env.notAfter
                (pre ++ mid.1 ++ [.finish, e1, e2, e3],
                 .ok { certId := a.certId, status := "issued",
                       notAfter := env.notAfter,
                       directoryUrl := renewDirectoryUrl a rec })

/-- Translation of `Orchestrator.renew_certificate` (orchestrator.py
lines 257-365), producing the event trace together with the result. -/
def renewCertificate (cfg : Config) (inv : List CertRec) (a : RenewArgs)
    (env : RenewEnv) : List Event × Except OrcError RenewResult :=
  match invGet inv a.certId with
  | none => ([], .error (.valueError "Unknown cert_id"))
  | some rec => renewWithRec cfg a rec env

theorem renewCertificate_some {inv : List CertRec} {a : RenewArgs}
    {rec : CertRec} (cfg : Config) (env : RenewEnv)
    (h : invGet inv a.certId = some rec) :
    renewCertificate cfg inv a env = renewWithRec cfg a rec env := by
  rw [renewCertificate, h]

/-! ## Inventory state

`adapters/inventory.py` effects on the tracked columns of the `certs`
table.  `store_challenges` and `mark_deployed` only merge into the
`deployed` JSONB sub-document, which is not among the tracked columns,
so they leave the tracked state unchanged. -/

/-- Apply one trace event to the inventory table. -/
def applyEvent (inv : List CertRec) : Event → List CertRec
  | .invCreate r => inv ++ [r]
  | .invUpdateDates cid nb na =>
      inv.map fun r =>
        if r.certId = cid then { r with notBefore := nb, notAfter := na } else r
  | .invUpdateStatus cid st =>
      inv.map fun r => if r.certId = cid then { r with status := st } else r
  | _ => inv

/-- Apply a whole event trace to the inventory table. -/
def applyTrace (inv : List CertRec) (t : List Event) : List CertRec :=
  t.foldl applyEvent inv

/-! ## REST error surfacing (`server.py`, `guided_api.py`) -/

/-- Translation of the `POST /acme/request_certificate` handler
(server.py lines 226-231): on success FastAPI returns HTTP 200; any
exception `e` is re-raised as `HTTPException(400, str(e))`. -/
def acmeRequestCertificateStatus (cfg : Config) (p : IssueParams)
    (env : IssueEnv) : Nat × String :=
  match (requestCertificate cfg p env).2 with
  | .ok _ => (200, "")
  | .error e => (400, e.message)

/-- The friendly error body that `/guided/commit` can return. -/
structure FriendlyResp where
  statusCode : Nat
  reason : String
  retryAfter : Option String
  directoryUrl : Option String
  fieldsNeeded : List String
  deriving Repr, DecidableEq

/-- Translation of the `except AcmeEabRequiredError` / `except
AcmeRateLimitError` arms of `guided_commit` (guided_api.py lines
247-278): a rate limit becomes a 429 `acme_rate_limited` JSON response
with `retry_after` and `directory_url`; EAB-required becomes a 400
`acme_eab_required` response; every other outcome is not handled by
these arms (`none`). -/
def guidedCommitFriendly {α : Type} (r : Except OrcError α) : Option FriendlyResp :=
  match r with
  | .error (.rateLimited iso du) =>
      some ⟨429, "acme_rate_limited", iso, some du, []⟩
  | .error (.eabRequired du) =>
      some ⟨400, "acme_eab_required", none, some du, ["eab_secret"]⟩
  | _ => none

/-! # Theorems -/

/-! ## C8 — secret-store path normalization -/

/-- C8 (confirmed): secret-store path normalization reduces each of the
accepted shapes `foo/bar`, `/secret/data/foo/bar`,
`v1/secret/data/foo/bar`, `/v1/secret/data/foo/bar` to the leaf
`foo/bar`, and is idempotent on every one of them. -/
theorem c8_normalize_idempotent_on_accepted_shapes :
    (normalizeKv2 "foo/bar" = "foo/bar" ∧
      normalizeKv2 (normalizeKv2 "foo/bar") = normalizeKv2 "foo/bar") ∧
    (normalizeKv2 "/secret/data/foo/bar" = "foo/bar" ∧
      normalizeKv2 (normalizeKv2 "/secret/data/foo/bar") =
        normalizeKv2 "/secret/data/foo/bar") ∧
    (normalizeKv2 "v1/secret/data/foo/bar" = "foo/bar" ∧
      normalizeKv2 (normalizeKv2 "v1/secret/data/foo/bar") =
        normalizeKv2 "v1/secret/data/foo/bar") ∧
    (normalizeKv2 "/v1/secret/data/foo/bar" = "foo/bar" ∧
      normalizeKv2 (normalizeKv2 "/v1/secret/data/foo/bar") =
        normalizeKv2 "/v1/secret/data/foo/bar") := by
  decide

/-! ## C7 — chunked upload -/

theorem uploadLoop_ne_nil {content : List Nat} {offset : Nat}
    (h : offset < content.length) : uploadLoop content offset ≠ [] := by
  rw [uploadLoop]
  simp [h]

theorem uploadLoop_spec (content : List Nat) :
    ∀ offset, offset ≤ content.length →
      rangesCover offset content.length
        ((uploadLoop content offset).map fun c => (c.start, c.stop)) ∧
      (∀ c ∈ uploadLoop content offset,
        c.stop - c.start ≤ CHUNK_SIZE ∧ c.start < c.stop ∧
          c.data.length = c.stop - c.start) ∧
      ((uploadLoop content offset).map fun c => c.data.length).sum =
        content.length - offset ∧
      (offset < content.length →
        ((uploadLoop content offset).getLast?.map fun c => c.stop) =
          some content.length) := by
  suffices H : ∀ n offset, content.length - offset = n → offset ≤ content.length →
      rangesCover offset content.length
        ((uploadLoop content offset).map fun c => (c.start, c.stop)) ∧
      (∀ c ∈ uploadLoop content offset,
        c.stop - c.start ≤ CHUNK_SIZE ∧ c.start < c.stop ∧
          c.data.length = c.stop - c.start) ∧
      ((uploadLoop content offset).map fun c => c.data.length).sum =
        content.length - offset ∧
      (offset < content.length →
        ((uploadLoop content offset).getLast?.map fun c => c.stop) =
          some content.length) by
    intro offset hle
    exact H _ offset rfl hle
  intro n
  induction n using Nat.strong_induction_on with
  | _ n ih =>
    intro offset hn hle
    rw [uploadLoop]
    by_cases h : offset < content.length
    · simp only [h, dif_pos]
      have he1 : offset < min (offset + CHUNK_SIZE) content.length := by
        simp only [CHUNK_SIZE]; omega
      have he2 : min (offset + CHUNK_SIZE) content.length ≤ content.length := by
        omega
      have ihm := ih (content.length - min (offset + CHUNK_SIZE) content.length)
        (by omega) (min (offset + CHUNK_SIZE) content.length) rfl he2
      refine ⟨?_, ?_, ?_, ?_⟩
      · exact ⟨rfl, he1, ihm.1⟩
      · intro c hc
        rcases List.mem_cons.mp hc with hc | hc
        · subst hc
          refine ⟨by simp [CHUNK_SIZE]; omega, he1, ?_⟩
          simp only [List.length_take, List.length_drop]
          omega
        · exact ihm.2.1 c hc
      · simp only [List.map_cons, List.sum_cons, List.length_take,
          List.length_drop, ihm.2.2.1]
        omega
      · intro _
        by_cases h2 : min (offset + CHUNK_SIZE) content.length < content.length
        · have hne := uploadLoop_ne_nil h2
          rcases List.exists_cons_of_ne_nil hne with ⟨b, t, hbt⟩
          rw [hbt]
          have := ihm.2.2.2 h2
          rw [hbt] at this
          rw [List.getLast?_cons_cons]
          exact this
        · have hmin : min (offset + CHUNK_SIZE) content.length = content.length := by
            omega
          rw [hmin]
          have hempty : uploadLoop content content.length = [] := by
            rw [uploadLoop]
            simp
          rw [hempty]
          rfl
    · simp only [h, dif_neg, not_false_iff]
      have : offset = content.length := by omega
      subst this
      refine ⟨rfl, by simp, by simp, ?_⟩
      intro hlt
      exact hlt.elim

/-- C7 (confirmed): for every non-empty byte string, the chunked upload
emits chunks of at most 1 MiB whose `Content-Range` values
`start-(end-1)/total` cover `[0, total)` contiguously (no gaps, no
overlaps), whose lengths sum to `total`, whose last end-1 equals
`total - 1`, and more than one POST is sent when `total` exceeds the
chunk size. -/
theorem c7_chunked_upload_ranges (content : List Nat) (h : content ≠ []) :
    ∃ chunks, uploadOctets content = .ok chunks ∧
      (∀ c ∈ chunks, c.data.length ≤ 1024 * 1024 ∧
        contentRangeHeader c content.length =
          toString c.start ++ "-" ++ toString (c.stop - 1) ++ "/" ++
            toString content.length) ∧
      rangesCover 0 content.length (chunks.map fun c => (c.start, c.stop)) ∧
      (chunks.map fun c => c.data.length).sum = content.length ∧
      (chunks.getLast?.map fun c => c.stop - 1) = some (content.length - 1) ∧
      (1024 * 1024 < content.length → 2 ≤ chunks.length) := by
  have hpos : 0 < content.length := List.length_pos.mpr h
  have hs := uploadLoop_spec content 0 (Nat.zero_le _)
  refine ⟨uploadLoop content 0, ?_, ?_, ?_, ?_, ?_, ?_⟩
  · rw [uploadOctets, if_neg (by omega)]
  · intro c hc
    have := hs.2.1 c hc
    exact ⟨le_trans (this.2.2 ▸ this.1) (by simp [CHUNK_SIZE]), rfl⟩
  · exact hs.1
  · simpa using hs.2.2.1
  · rcases Option.map_eq_some'.mp (hs.2.2.2 hpos) with ⟨c, hc, hstop⟩
    simp [hc, hstop]
  · intro hbig
    rw [uploadLoop]
    have h0 : (0 : Nat) < content.length := hpos
    simp only [h0, dif_pos]
    have hcs : CHUNK_SIZE = 1024 * 1024 := rfl
    have hlt : min (0 + CHUNK_SIZE) content.length < content.length := by
      omega
    have := uploadLoop_ne_nil hlt
    rcases List.exists_cons_of_ne_nil this with ⟨a, l, hal⟩
    rw [hal]
    simp

/-! Association-list lemmas for the datagroup upsert (C6). -/

theorem assocGet_assocPut_same (l : List (String × String)) (k v : String) :
    assocGet (assocPut l k v) k = some v := by
  induction l with
  | nil => simp [assocPut, assocGet]
  | cons hd tl ih =>
      obtain ⟨hk, hv⟩ := hd
      by_cases h : hk = k
      · subst h
        simp [assocPut, assocGet]
      · simp [assocPut, assocGet, h, ih]

theorem assocGet_assocPut_other (l : List (String × String)) {k k' : String}
    (v : String) (h : k ≠ k') :
    assocGet (assocPut l k v) k' = assocGet l k' := by
  induction l with
  | nil => simp [assocPut, assocGet, h]
  | cons hd tl ih =>
      obtain ⟨hk, hv⟩ := hd
      by_cases h1 : hk = k
      · subst h1
        simp [assocPut, assocGet, h]
      · by_cases h2 : hk = k'
        · subst h2
          simp [assocPut, assocGet, h1]
        · simp [assocPut, assocGet, h1, h2, ih]

theorem mem_of_assocGet {l : List (String × String)} {k v : String}
    (h : assocGet l k = some v) : (k, v) ∈ l := by
  induction l with
  | nil => simp [assocGet] at h
  | cons hd tl ih =>
      obtain ⟨hk, hv⟩ := hd
      by_cases h1 : hk = k
      · subst h1
        rw [assocGet, if_pos rfl] at h
        injection h with h2
        subst h2
        exact List.mem_cons_self _ _
      · rw [assocGet, if_neg h1] at h
        exact List.mem_cons_of_mem _ (ih h)

theorem assocGet_of_mem {l : List (String × String)} {k v : String}
    (hnd : (l.map Prod.fst).Nodup) (h : (k, v) ∈ l) : assocGet l k = some v := by
  induction l with
  | nil => simp at h
  | cons hd tl ih =>
      obtain ⟨hk, hv⟩ := hd
      simp only [List.map_cons, List.nodup_cons] at hnd
      rcases List.mem_cons.mp h with h | h
      · rw [assocGet]
        have h1 : hk = k := (Prod.mk.injEq .. ▸ h.symm).1
        have h2 : hv = v := (Prod.mk.injEq .. ▸ h.symm).2
        subst h1
        subst h2
        simp
      · have hne : hk ≠ k := by
          intro he
          subst he
          exact hnd.1 (List.mem_map.mpr ⟨(hk, v), h, rfl⟩)
        rw [assocGet, if_neg hne]
        exact ih hnd.2 h

theorem map_fst_assocPut (l : List (String × String)) (k v : String) :
    (assocPut l k v).map Prod.fst =
      if k ∈ l.map Prod.fst then l.map Prod.fst else l.map Prod.fst ++ [k] := by
  induction l with
  | nil => simp [assocPut]
  | cons hd tl ih =>
      obtain ⟨hk, hv⟩ := hd
      by_cases h1 : hk = k
      · subst h1
        simp [assocPut]
      · have h2 : ¬k = hk := fun h => h1 h.symm
        rw [assocPut, if_neg h1]
        simp only [List.map_cons, List.mem_cons, h2, false_or, ih]
        by_cases h3 : k ∈ tl.map Prod.fst <;> simp [h3]

theorem nodup_map_fst_assocPut {l : List (String × String)} (k v : String)
    (h : (l.map Prod.fst).Nodup) : ((assocPut l k v).map Prod.fst).Nodup := by
  rw [map_fst_assocPut]
  by_cases h1 : k ∈ l.map Prod.fst
  · simpa [h1]
  · simp only [h1, if_false]
    rw [List.nodup_append]
    exact ⟨h, List.nodup_singleton _, by simpa using h1⟩

theorem assocPut_of_not_mem {l : List (String × String)} {k : String} (v : String)
    (h : k ∉ l.map Prod.fst) : assocPut l k v = l ++ [(k, v)] := by
  induction l with
  | nil => rfl
  | cons hd tl ih =>
      obtain ⟨hk, hv⟩ := hd
      simp only [List.map_cons, List.mem_cons] at h
      push_neg at h
      have h1 : hk ≠ k := fun he => h.1 he.symm
      rw [assocPut, if_neg h1, ih h.2]
      rfl

theorem foldl_assocPut_disjoint :
    ∀ (rs : List DGRecord) (acc : List (String × String)),
      (rs.map DGRecord.name).Nodup →
      (∀ r ∈ rs, r.name ∉ acc.map Prod.fst) →
      rs.foldl (fun acc r => assocPut acc r.name r.data) acc =
        acc ++ rs.map fun r => (r.name, r.data) := by
  intro rs
  induction rs with
  | nil => intro acc _ _; simp
  | cons hd tl ih =>
      intro acc hnd hacc
      simp only [List.map_cons, List.nodup_cons] at hnd
      simp only [List.foldl_cons, List.map_cons]
      rw [assocPut_of_not_mem hd.data (hacc hd (List.mem_cons_self _ _))]
      rw [ih (acc ++ [(hd.name, hd.data)]) hnd.2 ?_]
      · simp
      · intro r hr
        simp only [List.map_append, List.mem_append, List.map_cons,
          List.map_nil, List.mem_singleton]
        push_neg
        refine ⟨hacc r (List.mem_cons_of_mem _ hr), ?_⟩
        intro he
        exact hnd.1 (he ▸ List.mem_map.mpr ⟨r, hr, rfl⟩)

theorem dictOfRecords_eq_map {rs : List DGRecord}
    (h : (rs.map DGRecord.name).Nodup) :
    dictOfRecords rs = rs.map fun r => (r.name, r.data) := by
  simpa [dictOfRecords] using foldl_assocPut_disjoint rs [] h (by simp)

theorem upsertFold_cons (st : List (String × String) × Bool)
    (hd : String × String) (tl : List (String × String)) :
    upsertFold st (hd :: tl) = upsertFold (upsertStep st hd) tl := rfl

theorem upsertStep_get_other (st : List (String × String) × Bool)
    {tk : String × String} {k : String} (h : tk.1 ≠ k) :
    assocGet (upsertStep st tk).1 k = assocGet st.1 k := by
  rw [upsertStep]
  split
  · rfl
  · exact assocGet_assocPut_other _ _ h

theorem upsertFold_get_not_mem (m : List (String × String)) :
    ∀ (st : List (String × String) × Bool) (k : String),
      k ∉ m.map Prod.fst →
      assocGet (upsertFold st m).1 k = assocGet st.1 k := by
  induction m with
  | nil => intro st k _; rfl
  | cons hd tl ih =>
      intro st k hk
      simp only [List.map_cons, List.mem_cons] at hk
      push_neg at hk
      rw [upsertFold_cons, ih (upsertStep st hd) k hk.2]
      exact upsertStep_get_other st fun he => hk.1 he.symm

theorem upsertFold_get_mem (m : List (String × String)) :
    ∀ (st : List (String × String) × Bool),
      (m.map Prod.fst).Nodup → ∀ tk ∈ m,
      assocGet (upsertFold st m).1 tk.1 = some tk.2 := by
  induction m with
  | nil => intro st _ tk htk; simp at htk
  | cons hd tl ih =>
      intro st hnd tk htk
      simp only [List.map_cons, List.nodup_cons] at hnd
      rcases List.mem_cons.mp htk with h | h
      · subst h
        rw [upsertFold_cons, upsertFold_get_not_mem tl _ tk.1 hnd.1]
        rw [upsertStep]
        split
        · assumption
        · exact assocGet_assocPut_same _ _ _
      · exact ih (upsertStep st hd) hnd.2 tk h

theorem upsertFold_nodup (m : List (String × String)) :
    ∀ (st : List (String × String) × Bool),
      (st.1.map Prod.fst).Nodup → ((upsertFold st m).1.map Prod.fst).Nodup := by
  induction m with
  | nil => intro st h; exact h
  | cons hd tl ih =>
      intro st h
      rw [upsertFold_cons]
      refine ih (upsertStep st hd) ?_
      rw [upsertStep]
      split
      · exact h
      · exact nodup_map_fst_assocPut _ _ h

theorem upsertFold_unchanged (m : List (String × String)) :
    ∀ (ex : List (String × String)) (b : Bool),
      (∀ tk ∈ m, assocGet ex tk.1 = some tk.2) →
      upsertFold (ex, b) m = (ex, b) := by
  induction m with
  | nil => intro ex b _; rfl
  | cons hd tl ih =>
      intro ex b h
      rw [upsertFold_cons, upsertStep, if_pos (h hd (List.mem_cons_self _ _))]
      exact ih ex b fun tk htk => h tk (List.mem_cons_of_mem _ htk)

/-- Membership in the map-to-`DGRecord` of a pair list. -/
theorem mem_map_mkDGRecord {l : List (String × String)} {k v : String}
    (h : (k, v) ∈ l) :
    (⟨k, v⟩ : DGRecord) ∈ l.map fun kv => (⟨kv.1, kv.2⟩ : DGRecord) :=
  List.mem_map.mpr ⟨(k, v), h, rfl⟩

/-- C6 (confirmed): a datagroup upsert with incoming token map `m` over
existing records `rs` (with the datagroup's unique row names, and `m`
the items of a Python dict so its keys are unique) writes back, if it
writes at all, a records array in which every row of `rs` whose name is
not a key of `m` appears unchanged, every pair of `m` appears keyed by
name, and which is sorted by name; and when every pair of `m` already
matches a row of `rs`, no write-back happens at all. -/
theorem c6_datagroup_upsert_merge (rs : List DGRecord) (m : List (String × String))
    (hr : (rs.map DGRecord.name).Nodup) (hm : (m.map Prod.fst).Nodup) :
    (∀ w, (upsertHttp01Records rs m).1 = some w →
        (∀ r ∈ rs, r.name ∉ m.map Prod.fst → r ∈ w) ∧
        (∀ tk ∈ m, (⟨tk.1, tk.2⟩ : DGRecord) ∈ w) ∧
        w.Pairwise (fun a b => a.name ≤ b.name)) ∧
    ((∀ tk ∈ m, (⟨tk.1, tk.2⟩ : DGRecord) ∈ rs) →
        (upsertHttp01Records rs m).1 = none) := by
  have hex : dictOfRecords rs = rs.map fun r => (r.name, r.data) :=
    dictOfRecords_eq_map hr
  have hexkeys : ((dictOfRecords rs).map Prod.fst).Nodup := by
    rw [hex, List.map_map]
    exact hr
  constructor
  · intro w hw
    rw [upsertHttp01Records] at hw
    by_cases hch : (upsertFold (dictOfRecords rs, false) m).2
    · simp only [hch, if_true, Option.some.injEq] at hw
      subst hw
      have hfnd : ((upsertFold (dictOfRecords rs, false) m).1.map Prod.fst).Nodup :=
        upsertFold_nodup m _ hexkeys
      refine ⟨?_, ?_, ?_⟩
      · intro r hrs hnotm
        have hget : assocGet (upsertFold (dictOfRecords rs, false) m).1 r.name =
            some r.data := by
          rw [upsertFold_get_not_mem m _ r.name hnotm]
          exact assocGet_of_mem hexkeys (hex ▸ List.mem_map.mpr ⟨r, hrs, rfl⟩)
        have hmem := mem_of_assocGet hget
        have := mem_map_mkDGRecord
          ((List.mem_insertionSort pairLe).mpr hmem)
        exact this
      · intro tk htk
        have hget := upsertFold_get_mem m (dictOfRecords rs, false) hm tk htk
        exact mem_map_mkDGRecord ((List.mem_insertionSort pairLe).mpr
          (mem_of_assocGet hget))
      · have hsorted := List.sorted_insertionSort pairLe
          (upsertFold (dictOfRecords rs, false) m).1
        exact List.Pairwise.map _ (fun a b hab => hab) hsorted
    · simp [hch] at hw
  · intro hall
    have hfix : upsertFold (dictOfRecords rs, false) m = (dictOfRecords rs, false) := by
      refine upsertFold_unchanged m _ false fun tk htk => ?_
      refine assocGet_of_mem hexkeys ?_
      rw [hex]
      exact List.mem_map.mpr ⟨⟨tk.1, tk.2⟩, hall tk htk, rfl⟩
    rw [upsertHttp01Records, hfix]
    rfl

/-- C6 witness: the theorem applied to the concrete datagroup
`[(b, 2), (a, 1)]` and incoming map `[(c, 3), (a, 1)]`. -/
theorem c6_datagroup_upsert_merge_witness :
    ((([⟨"b", "2"⟩, ⟨"a", "1"⟩] : List DGRecord).map DGRecord.name).Nodup ∧
      (([("c", "3"), ("a", "1")] : List (String × String)).map Prod.fst).Nodup) ∧
    ((∀ w, (upsertHttp01Records [⟨"b", "2"⟩, ⟨"a", "1"⟩] [("c", "3"), ("a", "1")]).1 =
          some w →
        (∀ r ∈ ([⟨"b", "2"⟩, ⟨"a", "1"⟩] : List DGRecord),
            r.name ∉ ([("c", "3"), ("a", "1")] : List (String × String)).map Prod.fst →
            r ∈ w) ∧
        (∀ tk ∈ ([("c", "3"), ("a", "1")] : List (String × String)),
            (⟨tk.1, tk.2⟩ : DGRecord) ∈ w) ∧
        w.Pairwise (fun a b => a.name ≤ b.name)) ∧
      ((∀ tk ∈ ([("c", "3"), ("a", "1")] : List (String × String)),
          (⟨tk.1, tk.2⟩ : DGRecord) ∈ ([⟨"b", "2"⟩, ⟨"a", "1"⟩] : List DGRecord)) →
        (upsertHttp01Records [⟨"b", "2"⟩, ⟨"a", "1"⟩] [("c", "3"), ("a", "1")]).1 =
          none)) :=
  ⟨⟨by decide, by decide⟩,
    c6_datagroup_upsert_merge [⟨"b", "2"⟩, ⟨"a", "1"⟩] [("c", "3"), ("a", "1")]
      (by decide) (by decide)⟩

/-- C7 witness: the theorem applied to the concrete three-byte content
`[7, 8, 9]`. -/
theorem c7_chunked_upload_ranges_witness :
    ([7, 8, 9] : List Nat) ≠ [] ∧
      ∃ chunks, uploadOctets [7, 8, 9] = .ok chunks ∧
        (∀ c ∈ chunks, c.data.length ≤ 1024 * 1024 ∧
          contentRangeHeader c (3 : Nat) =
            toString c.start ++ "-" ++ toString (c.stop - 1) ++ "/" ++
              toString (3 : Nat)) ∧
        rangesCover 0 3 (chunks.map fun c => (c.start, c.stop)) ∧
        (chunks.map fun c => c.data.length).sum = 3 ∧
        (chunks.getLast?.map fun c => c.stop - 1) = some 2 ∧
        (1024 * 1024 < 3 → 2 ≤ chunks.length) :=
  ⟨by decide, c7_chunked_upload_ranges [7, 8, 9] (by decide)⟩

deriving instance DecidableEq for Except

/-! ## C9 — Vault.read -/

/-- C9 counterexample: with the default Vault base URL, reading a path
whose secret is missing (KV-v2 answers HTTP 404) raises the
`RuntimeError` from `raise_for_status`, instead of returning the empty
mapping the claim promises. -/
theorem c9_missing_secret_counterexample :
    vaultRead "http://vault:8200" "tls/a.example.com" (kv2Response none) =
      .error "Vault read failed from http://vault:8200/v1/secret/data/tls/a.example.com" ∧
    vaultRead "http://vault:8200" "tls/a.example.com" (kv2Response none) ≠
      .ok ([] : KVMap) := by
  constructor
  · rfl
  · decide

/-- C9 (corrected): for every path, `Vault.read` returns the inner
`.data.data` object of a successful (non-4xx/5xx) response, defaulting
missing or null fields to the empty mapping; but a missing secret makes
the KV-v2 server answer 404, on which `raise_for_status` makes read
raise a `RuntimeError` instead of returning an empty mapping. -/
theorem c9_vault_read_inner_data (base path : String) (resp : VaultHttpResp) :
    (resp.status < 400 → vaultRead base path resp = .ok (resp.inner.getD [])) ∧
    (400 ≤ resp.status → vaultRead base path resp =
      .error ("Vault read failed from " ++
        (base ++ "/v1/secret/data/" ++ normalizeKv2 path))) ∧
    (∀ kv : KVMap, vaultRead base path (kv2Response (some kv)) = .ok kv) ∧
    (∃ msg, vaultRead base path (kv2Response none) = .error msg) := by
  refine ⟨?_, ?_, ?_, ?_⟩
  · intro h
    rw [vaultRead, if_neg (by omega)]
  · intro h
    rw [vaultRead, if_pos h]
  · intro kv
    rw [vaultRead, kv2Response, if_neg (show ¬(400 ≤ 200) by omega)]
    rfl
  · exact ⟨_, rfl⟩

/-- C9 witness: the theorem applied to a concrete 200 response carrying
a private key object. -/
theorem c9_vault_read_inner_data_witness :
    (200 : Nat) < 400 ∧
      vaultRead "http://vault:8200" "tls/x"
          ⟨200, some [("private_key_pem", "PEM")]⟩ =
        .ok [("private_key_pem", "PEM")] :=
  ⟨by decide,
    (c9_vault_read_inner_data "http://vault:8200" "tls/x"
      ⟨200, some [("private_key_pem", "PEM")]⟩).1 (by decide)⟩

/-! ## C4 — rate-limit surfacing -/

/-- Concrete issue parameters used by several concrete evaluations:
one domain, default provider, a secret-store key path, no BIG-IP. -/
def issueParamsEx : IssueParams :=
  { domains := ["a.example.com"], keySecretPath := some "tls/a.example.com" }

/-- A concrete environment in which the ACME run exits without writing
challenge files and its output carries the rate-limit marker with a
retry timestamp. -/
def rateLimitEnvEx : IssueEnv :=
  { wait1 := ⟨false, some 1,
      "acme:error:rateLimited retry after 2025-01-02 03:04:05 UTC", ""⟩ }

/-- C4 counterexample: a `request_certificate` call whose runner output
contains `acme:error:rateLimited` (with a parseable retry timestamp) is
classified as the rate-limit error, but the REST caller of
`POST /acme/request_certificate` receives HTTP 400 with detail
`ACME_RATE_LIMIT` — not the HTTP 429 body the claim describes. -/
theorem c4_rest_status_counterexample :
    rateMarker (rateLimitEnvEx.wait1.err ++ rateLimitEnvEx.wait1.out) = true ∧
    (requestCertificate {} issueParamsEx rateLimitEnvEx).2 =
      .error (.rateLimited (some "2025-01-02T03:04:05Z")
        "https://acme-v02.api.letsencrypt.org/directory") ∧
    acmeRequestCertificateStatus {} issueParamsEx rateLimitEnvEx =
      (400, "ACME_RATE_LIMIT") ∧
    (acmeRequestCertificateStatus {} issueParamsEx rateLimitEnvEx).1 ≠ 429 := by
  refine ⟨by decide, by decide, by decide, by decide⟩

/-- C4 (corrected): whenever `request_certificate` raises the rate-limit
classification, the direct REST endpoint `POST /acme/request_certificate`
answers HTTP 400 with detail `ACME_RATE_LIMIT`, while the guided commit
endpoint answers HTTP 429 with reason `acme_rate_limited`, the parsed
`retry_after` and the `directory_url`; the retry timestamp
`retry after 2025-01-02 03:04:05 UTC` is rendered as ISO-8601
`2025-01-02T03:04:05Z`. -/
theorem c4_rate_limit_surfacing (cfg : Config) (p : IssueParams) (env : IssueEnv)
    (iso : Option String) (du : String)
    (h : (requestCertificate cfg p env).2 = .error (.rateLimited iso du)) :
    acmeRequestCertificateStatus cfg p env = (400, "ACME_RATE_LIMIT") ∧
    guidedCommitFriendly (requestCertificate cfg p env).2 =
      some ⟨429, "acme_rate_limited", iso, some du, []⟩ ∧
    extractRetryAfterIso "retry after 2025-01-02 03:04:05 UTC" =
      some "2025-01-02T03:04:05Z" := by
  refine ⟨?_, ?_, by decide⟩
  · rw [acmeRequestCertificateStatus, h]
    rfl
  · rw [h]
    rfl

/-- C4 witness: the theorem applied to the concrete rate-limited run. -/
theorem c4_rate_limit_surfacing_witness :
    (requestCertificate {} issueParamsEx rateLimitEnvEx).2 =
      .error (.rateLimited (some "2025-01-02T03:04:05Z")
        "https://acme-v02.api.letsencrypt.org/directory") ∧
    (acmeRequestCertificateStatus {} issueParamsEx rateLimitEnvEx =
        (400, "ACME_RATE_LIMIT") ∧
      guidedCommitFriendly (requestCertificate {} issueParamsEx rateLimitEnvEx).2 =
        some ⟨429, "acme_rate_limited", some "2025-01-02T03:04:05Z",
          some "https://acme-v02.api.letsencrypt.org/directory", []⟩ ∧
      extractRetryAfterIso "retry after 2025-01-02 03:04:05 UTC" =
        some "2025-01-02T03:04:05Z") :=
  ⟨by decide,
    c4_rate_limit_surfacing {} issueParamsEx rateLimitEnvEx
      (some "2025-01-02T03:04:05Z")
      "https://acme-v02.api.letsencrypt.org/directory" (by decide)⟩

/-! ## Event classification helpers for the trace claims -/

/-- Is this event a preflight poll? -/
def Event.isPreflight : Event → Bool
  | .preflight _ _ _ => true
  | _ => false

/-- Is this event the start of the challenge-pump thread? -/
def Event.isWatcherStart : Event → Bool
  | .watcherStart _ _ _ => true
  | _ => false

/-- Is this event a datagroup upsert? -/
def Event.isDgUpsert : Event → Bool
  | .dgUpsert _ _ _ => true
  | _ => false

/-- Is this event a secret-store write? -/
def Event.isVaultWrite : Event → Bool
  | .vaultWrite _ _ => true
  | _ => false

/-- Is this event an inventory row creation? -/
def Event.isInvCreate : Event → Bool
  | .invCreate _ => true
  | _ => false

theorem preflightLoop_events (hostname : String) (chs : List (String × String))
    (fail : List String) :
    ∀ e ∈ (preflightLoop hostname chs fail).1, e.isPreflight = true := by
  induction chs with
  | nil => intro e he; simp [preflightLoop] at he
  | cons hd tl ih =>
      intro e he
      obtain ⟨tok, ka⟩ := hd
      rw [preflightLoop] at he
      by_cases h : tok ∈ fail
      · simp only [h, if_pos, List.mem_singleton] at he
        simp [he, Event.isPreflight]
      · simp only [h, if_neg, not_false_iff, List.mem_cons] at he
        rcases he with he | he
        · simp [he, Event.isPreflight]
        · exact ih e he

/-- Every event emitted between the first wait and the install step is a
preflight poll, a `_finish`, or the force-issue `runBg`. -/
theorem issueWait_events (main : String) (b : Bool) (du : String)
    (fc : List String) (env : IssueEnv) :
    ∀ e ∈ (issueWait main b du fc env).1,
      e.isPreflight = true ∨ e = .finish ∨ e = .runBg fc := by
  intro e he
  rw [issueWait] at he
  split at he
  · -- hadFiles branch
    rcases hpf : (if b then preflightLoop main env.challenges1 env.preflightFail
      else (([], none) : List Event × Option OrcError)) with ⟨pfe, pfr⟩
    have hpfe : ∀ x ∈ pfe, Event.isPreflight x = true := by
      intro x hx
      by_cases hb : b
      · rw [if_pos hb] at hpf
        exact preflightLoop_events main env.challenges1 env.preflightFail x
          (by rw [hpf]; exact hx)
      · rw [if_neg hb] at hpf
        cases hpf
        simp at hx
    rw [hpf] at he
    simp only [] at he
    split at he
    · exact Or.inl (hpfe e he)
    · split at he <;>
        · rcases List.mem_append.mp he with h | h
          · exact Or.inl (hpfe e h)
          · simp only [List.mem_singleton] at h
            exact Or.inr (Or.inl h)
  · -- no files
    split at he
    · simp at he
    · split at he
      · simp at he
      · split at he
        · -- force path
          simp only [] at he
          split at he
          · simp only [List.mem_singleton] at he
            exact Or.inr (Or.inr he)
          · rcases hpf : (if env.wait2.hadFiles ∧ b then
                preflightLoop main env.challenges2 env.preflightFail
              else (([], none) : List Event × Option OrcError)) with ⟨pfe, pfr⟩
            have hpfe : ∀ x ∈ pfe, Event.isPreflight x = true := by
              intro x hx
              by_cases hb : env.wait2.hadFiles ∧ b
              · rw [if_pos hb] at hpf
                exact preflightLoop_events main env.challenges2 env.preflightFail x
                  (by rw [hpf]; exact hx)
              · rw [if_neg hb] at hpf
                cases hpf
                simp at hx
            rw [hpf] at he
            split at he
            · rcases List.mem_cons.mp he with h | h
              · exact Or.inr (Or.inr h)
              · exact Or.inl (hpfe e h)
            · split at he <;>
                · rcases List.mem_cons.mp he with h | h
                  · exact Or.inr (Or.inr h)
                  · rcases List.mem_append.mp h with h | h
                    · exact Or.inl (hpfe e h)
                    · simp only [List.mem_singleton] at h
                      exact Or.inr (Or.inl h)
        · simp at he

/-! ## Shape lemmas for the issue trace -/

/-- When every observed token preflights successfully, the preflight
loop polls each one in order and reports no error. -/
theorem preflightLoop_all_ok (hostname : String) (chs : List (String × String))
    (fail : List String) (h : ∀ ch ∈ chs, ch.1 ∉ fail) :
    preflightLoop hostname chs fail =
      (chs.map fun ch => .preflight hostname ch.1 ch.2, none) := by
  induction chs with
  | nil => rfl
  | cons hd tl ih =>
      obtain ⟨tok, ka⟩ := hd
      rw [preflightLoop]
      have htok : tok ∉ fail := h (tok, ka) (List.mem_cons_self _ _)
      rw [if_neg htok, ih fun ch hch => h ch (List.mem_cons_of_mem _ hch)]
      rfl

/-- When some observed token never becomes publicly visible, the
preflight loop raises. -/
theorem preflightLoop_fail (hostname : String) (chs : List (String × String))
    (fail : List String) (h : ∃ ch ∈ chs, ch.1 ∈ fail) :
    ∃ err, (preflightLoop hostname chs fail).2 = some err := by
  induction chs with
  | nil => simp at h
  | cons hd tl ih =>
      obtain ⟨tok, ka⟩ := hd
      rw [preflightLoop]
      by_cases htok : tok ∈ fail
      · rw [if_pos htok]
        exact ⟨_, rfl⟩
      · rw [if_neg htok]
        rcases h with ⟨ch, hch, hfail⟩
        rcases List.mem_cons.mp hch with hch | hch
        · subst hch
          exact absurd hfail htok
        · exact ih ⟨ch, hch, hfail⟩

/-- In the files-appeared branch with a BIG-IP host, the wait phase runs
the preflight loop and then `_finish`; a preflight error aborts before
`_finish`. -/
theorem issueWait_hadFiles_bigip (main du : String) (fc : List String)
    (env : IssueEnv) (hf : env.wait1.hadFiles = true) :
    (∃ err, (preflightLoop main env.challenges1 env.preflightFail).2 = some err ∧
      issueWait main true du fc env =
        ((preflightLoop main env.challenges1 env.preflightFail).1, some err)) ∨
    ((preflightLoop main env.challenges1 env.preflightFail).2 = none ∧
      ∃ res, issueWait main true du fc env =
        ((preflightLoop main env.challenges1 env.preflightFail).1 ++ [.finish],
          res)) := by
  rw [issueWait, if_pos hf]
  rcases hpf : preflightLoop main env.challenges1 env.preflightFail with ⟨pfe, pfr⟩
  simp only [if_true]
  cases pfr with
  | some err => exact Or.inl ⟨err, rfl, rfl⟩
  | none =>
      refine Or.inr ⟨rfl, ?_⟩
      simp only []
      split
      · exact ⟨_, rfl⟩
      · exact ⟨_, rfl⟩

/-- In the files-appeared branch without a BIG-IP host, the wait phase
goes straight to `_finish` with no preflight. -/
theorem issueWait_hadFiles_noBigip (main du : String) (fc : List String)
    (env : IssueEnv) (hf : env.wait1.hadFiles = true) :
    ∃ res, issueWait main false du fc env = ([.finish], res) := by
  rw [issueWait, if_pos hf]
  simp only [Bool.false_eq_true, if_false]
  split
  · exact ⟨_, rfl⟩
  · exact ⟨_, rfl⟩

/-- The four exits of `request_certificate`: an early validation error
with no effects, the EAB-field validation error after the EAB secret
read, a wait-phase error after the pre-events, or the install phase
after a clean wait. -/
theorem requestCertificate_shape (cfg : Config) (p : IssueParams) (env : IssueEnv) :
    (∃ err, requestCertificate cfg p env = ([], .error err)) ∨
    (∃ err, requestCertificate cfg p env = (issueEabEvts p, .error err)) ∨
    (∃ err, (issueWait (p.domains.headD "") (truthy p.bigipHost)
        (issueDirectoryUrl p) (issueForceCmd cfg p env) env).2 = some err ∧
      requestCertificate cfg p env =
        (issuePreEvts cfg p env ++
          (issueWait (p.domains.headD "") (truthy p.bigipHost)
            (issueDirectoryUrl p) (issueForceCmd cfg p env) env).1, .error err)) ∨
    ((issueWait (p.domains.headD "") (truthy p.bigipHost)
        (issueDirectoryUrl p) (issueForceCmd cfg p env) env).2 = none ∧
      requestCertificate cfg p env =
        (issuePreEvts cfg p env ++
          (issueWait (p.domains.headD "") (truthy p.bigipHost)
            (issueDirectoryUrl p) (issueForceCmd cfg p env) env).1 ++
          (installPhase p env (cfg.dirFor env.certId) (p.domains.headD "")
            p.provider (issueDirectoryUrl p) (p.keySecretPath.getD "")).1,
         (installPhase p env (cfg.dirFor env.certId) (p.domains.headD "")
            p.provider (issueDirectoryUrl p) (p.keySecretPath.getD "")).2)) := by
  rw [requestCertificate]
  split
  · exact Or.inl ⟨_, rfl⟩
  · split
    · exact Or.inl ⟨_, rfl⟩
    · split
      · exact Or.inl ⟨_, rfl⟩
      · split
        · exact Or.inr (Or.inl ⟨_, rfl⟩)
        · simp only []
          rcases hmid : (issueWait (p.domains.headD "") (truthy p.bigipHost)
              (issueDirectoryUrl p) (issueForceCmd cfg p env) env) with ⟨mide, midr⟩
          cases midr with
          | some err => exact Or.inr (Or.inr (Or.inl ⟨err, rfl, rfl⟩))
          | none => exact Or.inr (Or.inr (Or.inr ⟨rfl, rfl⟩))

/-- Everything `request_certificate` does before launching the ACME
process is a secret-store read, the watcher start, a pump datagroup
upsert, or the `runBg` itself. -/
theorem issuePreEvts_kinds (cfg : Config) (p : IssueParams) (env : IssueEnv) :
    ∀ e ∈ issuePreEvts cfg p env,
      (∃ path, e = .vaultRead path) ∨ e.isWatcherStart = true ∨
        e.isDgUpsert = true ∨ e = .runBg (issueCmd cfg p env) := by
  intro e he
  rw [issuePreEvts] at he
  rcases List.mem_append.mp he with he | he
  · rcases List.mem_append.mp he with he | he
    · rw [issueEabEvts] at he
      split at he
      · simp only [List.mem_singleton] at he
        exact Or.inl ⟨_, he⟩
      · simp at he
    · rw [issueWatcherEvts] at he
      split at he
      · rcases List.mem_cons.mp he with he | he
        · subst he
          exact Or.inr (Or.inl rfl)
        · rcases List.mem_map.mp he with ⟨x, _, hx⟩
          subst hx
          exact Or.inr (Or.inr (Or.inl rfl))
      · simp at he
  · simp only [List.mem_singleton] at he
    exact Or.inr (Or.inr (Or.inr he))

/-- The install phase on a fully successful run: install, key write,
key delete, inventory create, then possibly the challenge archive. -/
theorem installPhase_ok_shape (p : IssueParams) (env : IssueEnv)
    (wdir main provider du ksp : String) (r : IssueResult)
    (h : (installPhase p env wdir main provider du ksp).2 = .ok r) :
    env.installOk = true ∧ env.vaultWriteOk = true ∧ env.parseOk = true ∧
    (installPhase p env wdir main provider du ksp).1 =
      Event.installCert (wdir ++ "/privkey.pem") (wdir ++ "/fullchain.pem")
          (wdir ++ "/cert.pem") ::
        Event.vaultWrite ksp env.keyText ::
        Event.removeKey (wdir ++ "/privkey.pem") ::
        Event.invCreate
          { certId := env.certId, mainDomain := main, san := p.domains,
            provider := provider, directoryUrl := du,
            notBefore := env.notBefore, notAfter := env.notAfter,
            path := wdir, keySecretPath := ksp, tags := p.tags,
            status := "issued" } ::
        (if env.challengesFinal.isEmpty then []
         else [Event.invStoreChallenges env.certId env.challengesFinal]) := by
  have h1 : env.installOk = true := by
    by_contra hc
    rw [installPhase, if_pos hc] at h
    simp at h
  have h2 : env.vaultWriteOk = true := by
    by_contra hc
    rw [installPhase, if_neg (by simp [h1]), if_pos hc] at h
    simp at h
  have h3 : env.parseOk = true := by
    by_contra hc
    rw [installPhase, if_neg (by simp [h1]), if_neg (by simp [h2]),
      if_pos hc] at h
    simp at h
  refine ⟨h1, h2, h3, ?_⟩
  rw [installPhase, if_neg (by simp [h1]), if_neg (by simp [h2]),
    if_neg (by simp [h3])]
  rfl

/-- Does this event touch the tracked columns of the inventory table? -/
def Event.isInvMutation : Event → Bool
  | .invCreate _ => true
  | .invUpdateDates _ _ _ => true
  | .invUpdateStatus _ _ => true
  | _ => false

theorem applyEvent_neutral {inv : List CertRec} {e : Event}
    (h : e.isInvMutation = false) : applyEvent inv e = inv := by
  cases e <;> first
    | rfl
    | simp [Event.isInvMutation] at h

theorem applyTrace_append (inv : List CertRec) (s t : List Event) :
    applyTrace inv (s ++ t) = applyTrace (applyTrace inv s) t :=
  List.foldl_append _ _ _ _

theorem applyTrace_neutral {inv : List CertRec} {t : List Event}
    (h : ∀ e ∈ t, e.isInvMutation = false) : applyTrace inv t = inv := by
  induction t with
  | nil => rfl
  | cons hd tl ih =>
      rw [applyTrace, List.foldl_cons,
        applyEvent_neutral (h hd (List.mem_cons_self _ _))]
      exact ih fun e he => h e (List.mem_cons_of_mem _ he)

theorem invGet_applyUpdateDates (inv : List CertRec) (cid : String)
    (nb na : Option String) :
    invGet (applyEvent inv (.invUpdateDates cid nb na)) cid =
      (invGet inv cid).map fun r => { r with notBefore := nb, notAfter := na } := by
  induction inv with
  | nil => rfl
  | cons hd tl ih =>
      by_cases h : hd.certId = cid
      · simp [applyEvent, invGet, List.find?, h]
      · simp only [applyEvent, List.map_cons, if_neg h] at *
        simp only [invGet, List.find?] at *
        rw [show (decide (hd.certId = cid)) = false by simp [h]]
        simpa [applyEvent] using ih

theorem applyEvent_no_create {e : Event} (h : e.isInvCreate = false) :
    applyEvent ([] : List CertRec) e = ([] : List CertRec) := by
  cases e <;> simp [applyEvent, Event.isInvCreate] at *

theorem applyTrace_nil_of_no_create {t : List Event}
    (h : ∀ e ∈ t, e.isInvCreate = false) : applyTrace [] t = [] := by
  induction t with
  | nil => rfl
  | cons hd tl ih =>
      rw [applyTrace, List.foldl_cons,
        applyEvent_no_create (h hd (List.mem_cons_self _ _))]
      exact ih fun e he => h e (List.mem_cons_of_mem _ he)

/-- Pre-events are never a preflight, a `_finish`, an inventory create,
a key write, or an inventory mutation. -/
theorem preEvt_kind_facts {e : Event}
    (h : (∃ path, e = .vaultRead path) ∨ e.isWatcherStart = true ∨
      e.isDgUpsert = true ∨ (∃ argv, e = .runBg argv)) :
    e.isPreflight = false ∧ e ≠ Event.finish ∧ e.isInvCreate = false ∧
      e.isVaultWrite = false ∧ e.isInvMutation = false := by
  rcases h with ⟨p, hp⟩ | h | h | ⟨a, ha⟩
  · subst hp
    refine ⟨rfl, ?_, rfl, rfl, rfl⟩
    intro hc
    cases hc
  · cases e <;> simp [Event.isWatcherStart] at h ⊢ <;>
      simp [Event.isPreflight, Event.isInvCreate, Event.isVaultWrite,
        Event.isInvMutation]
  · cases e <;> simp [Event.isDgUpsert] at h ⊢ <;>
      simp [Event.isPreflight, Event.isInvCreate, Event.isVaultWrite,
        Event.isInvMutation]
  · subst ha
    refine ⟨rfl, ?_, rfl, rfl, rfl⟩
    intro hc
    cases hc

/-- Preflight events are not `_finish`, inventory or secret effects. -/
theorem preflight_kind_facts {e : Event} (h : e.isPreflight = true) :
    e ≠ Event.finish ∧ e.isInvCreate = false ∧ e.isVaultWrite = false ∧
      e.isInvMutation = false ∧ e.isWatcherStart = false ∧
      e.isDgUpsert = false := by
  cases e <;> simp [Event.isPreflight] at h ⊢ <;>
    simp [Event.isInvCreate, Event.isVaultWrite, Event.isInvMutation,
      Event.isWatcherStart, Event.isDgUpsert]

/-- All events the install phase can emit. -/
theorem installPhase_events (p : IssueParams) (env : IssueEnv)
    (wdir main provider du ksp : String) :
    ∀ e ∈ (installPhase p env wdir main provider du ksp).1,
      e = .installCert (wdir ++ "/privkey.pem") (wdir ++ "/fullchain.pem")
          (wdir ++ "/cert.pem") ∨
      e = .vaultWrite ksp env.keyText ∨
      e = .removeKey (wdir ++ "/privkey.pem") ∨
      e.isInvCreate = true ∨
      (∃ cid chs, e = .invStoreChallenges cid chs) := by
  intro e he
  rw [installPhase] at he
  split at he
  · simp only [List.mem_singleton] at he
    exact Or.inl he
  · split at he
    · simp only [List.mem_cons, List.not_mem_nil, or_false] at he
      rcases he with he | he
      · exact Or.inl he
      · exact Or.inr (Or.inl he)
    · split at he
      · simp only [List.mem_cons, List.not_mem_nil, or_false] at he
        rcases he with he | he | he
        · exact Or.inl he
        · exact Or.inr (Or.inl he)
        · exact Or.inr (Or.inr (Or.inl he))
      · simp only [] at he
        rcases List.mem_append.mp he with he | he
        · simp only [List.mem_cons, List.not_mem_nil, or_false] at he
          rcases he with he | he | he | he
          · exact Or.inl he
          · exact Or.inr (Or.inl he)
          · exact Or.inr (Or.inr (Or.inl he))
          · subst he
            exact Or.inr (Or.inr (Or.inr (Or.inl rfl)))
        · split at he
          · simp at he
          · simp only [List.mem_singleton] at he
            subst he
            exact Or.inr (Or.inr (Or.inr (Or.inr ⟨_, _, rfl⟩)))

/-- With a failed secret-store write, the install phase emits no
inventory create. -/
theorem installPhase_no_create (p : IssueParams) (env : IssueEnv)
    (wdir main provider du ksp : String) (h : env.vaultWriteOk = false) :
    ∀ e ∈ (installPhase p env wdir main provider du ksp).1,
      e.isInvCreate = false := by
  intro e he
  rw [installPhase] at he
  split at he
  · simp only [List.mem_singleton] at he
    subst he; rfl
  · rw [if_pos (by simp [h])] at he
    simp only [List.mem_cons, List.not_mem_nil, or_false] at he
    rcases he with he | he <;> (subst he; rfl)

/-- With a failed secret-store write, the install phase raises. -/
theorem installPhase_error_of_failed_write (p : IssueParams) (env : IssueEnv)
    (wdir main provider du ksp : String) (h : env.vaultWriteOk = false) :
    ∃ err, (installPhase p env wdir main provider du ksp).2 = .error err := by
  rw [installPhase]
  split
  · exact ⟨_, rfl⟩
  · rw [if_pos (by simp [h])]
    exact ⟨_, rfl⟩

theorem issuePreEvts_kind_facts (cfg : Config) (p : IssueParams)
    (env : IssueEnv) :
    ∀ e ∈ issuePreEvts cfg p env,
      e.isPreflight = false ∧ e ≠ Event.finish ∧ e.isInvCreate = false ∧
        e.isVaultWrite = false ∧ e.isInvMutation = false := by
  intro e he
  refine preEvt_kind_facts ?_
  rcases issuePreEvts_kinds cfg p env e he with h | h | h | h
  · exact Or.inl h
  · exact Or.inr (Or.inl h)
  · exact Or.inr (Or.inr (Or.inl h))
  · exact Or.inr (Or.inr (Or.inr ⟨_, h⟩))

theorem issueEabEvts_kinds (p : IssueParams) :
    ∀ e ∈ issueEabEvts p, ∃ path, e = .vaultRead path := by
  intro e he
  rw [issueEabEvts] at he
  split at he
  · simp only [List.mem_singleton] at he
    exact ⟨_, he⟩
  · simp at he

/-! ## C3 — failed key write blocks inventory creation -/

/-- C3 (confirmed): when the private-key write to the secret store
fails, the whole `request_certificate` trace contains no inventory
create, the inventory (starting empty) stays empty, and the call raises
instead of returning. -/
theorem c3_failed_key_write_no_issued_record (cfg : Config) (p : IssueParams)
    (env : IssueEnv) (h : env.vaultWriteOk = false) :
    (∀ e ∈ (requestCertificate cfg p env).1, e.isInvCreate = false) ∧
    applyTrace [] (requestCertificate cfg p env).1 = [] ∧
    ∀ r, (requestCertificate cfg p env).2 ≠ .ok r := by
  have hall : ∀ e ∈ (requestCertificate cfg p env).1, e.isInvCreate = false := by
    intro e he
    rcases requestCertificate_shape cfg p env with ⟨err, hs⟩ | ⟨err, hs⟩ |
      ⟨err, hw, hs⟩ | ⟨hw, hs⟩
    · rw [hs] at he
      simp at he
    · rw [hs] at he
      rcases issueEabEvts_kinds p e he with ⟨path, hp⟩
      subst hp
      rfl
    · rw [hs] at he
      rcases List.mem_append.mp he with he | he
      · exact (issuePreEvts_kind_facts cfg p env e he).2.2.1
      · rcases issueWait_events _ _ _ _ _ e he with hk | hk | hk
        · exact (preflight_kind_facts hk).2.1
        · subst hk; rfl
        · subst hk; rfl
    · rw [hs] at he
      rcases List.mem_append.mp he with he | he
      · rcases List.mem_append.mp he with he | he
        · exact (issuePreEvts_kind_facts cfg p env e he).2.2.1
        · rcases issueWait_events _ _ _ _ _ e he with hk | hk | hk
          · exact (preflight_kind_facts hk).2.1
          · subst hk; rfl
          · subst hk; rfl
      · exact installPhase_no_create _ _ _ _ _ _ _ h e he
  refine ⟨hall, applyTrace_nil_of_no_create hall, ?_⟩
  intro r hr
  rcases requestCertificate_shape cfg p env with ⟨err, hs⟩ | ⟨err, hs⟩ |
    ⟨err, hw, hs⟩ | ⟨hw, hs⟩
  · rw [hs] at hr
    cases hr
  · rw [hs] at hr
    cases hr
  · rw [hs] at hr
    cases hr
  · rw [hs] at hr
    rcases installPhase_error_of_failed_write p env (cfg.dirFor env.certId)
      (p.domains.headD "") p.provider (issueDirectoryUrl p)
      (p.keySecretPath.getD "") h with ⟨err2, he2⟩
    rw [show (issuePreEvts cfg p env ++
        (issueWait (p.domains.headD "") (truthy p.bigipHost)
          (issueDirectoryUrl p) (issueForceCmd cfg p env) env).1 ++
        (installPhase p env (cfg.dirFor env.certId) (p.domains.headD "")
          p.provider (issueDirectoryUrl p) (p.keySecretPath.getD "")).1,
        (installPhase p env (cfg.dirFor env.certId) (p.domains.headD "")
          p.provider (issueDirectoryUrl p) (p.keySecretPath.getD "")).2).2 =
      (installPhase p env (cfg.dirFor env.certId) (p.domains.headD "")
          p.provider (issueDirectoryUrl p) (p.keySecretPath.getD "")).2
      from rfl, he2] at hr
    cases hr

/-- C3 witness: the theorem applied to a concrete environment with a
failing key write. -/
theorem c3_failed_key_write_no_issued_record_witness :
    ({ wait1 := ⟨true, none, "", ""⟩, vaultWriteOk := false } : IssueEnv).vaultWriteOk = false ∧
    ((∀ e ∈ (requestCertificate {} issueParamsEx
          { wait1 := ⟨true, none, "", ""⟩, vaultWriteOk := false }).1,
        e.isInvCreate = false) ∧
      applyTrace [] (requestCertificate {} issueParamsEx
          { wait1 := ⟨true, none, "", ""⟩, vaultWriteOk := false }).1 = [] ∧
      ∀ r, (requestCertificate {} issueParamsEx
          { wait1 := ⟨true, none, "", ""⟩, vaultWriteOk := false }).2 ≠ .ok r) :=
  ⟨by decide,
    c3_failed_key_write_no_issued_record {} issueParamsEx
      { wait1 := ⟨true, none, "", ""⟩, vaultWriteOk := false } (by decide)⟩

/-- With no BIG-IP host, the wait phase emits only `_finish` and the
force-issue launch — never a preflight. -/
theorem issueWait_noBigip_events (main du : String) (fc : List String)
    (env : IssueEnv) :
    ∀ e ∈ (issueWait main false du fc env).1, e = .finish ∨ e = .runBg fc := by
  intro e he
  rw [issueWait] at he
  rw [show (if (false : Bool) then
      preflightLoop main env.challenges1 env.preflightFail
    else (([], none) : List Event × Option OrcError)) = ([], none) from rfl] at he
  split at he
  · -- hadFiles branch: pf = ([], none)
    simp only [] at he
    split at he <;>
      · rcases List.mem_append.mp he with h | h
        · simp at h
        · simp only [List.mem_singleton] at h
          exact Or.inl h
  · split at he
    · simp at he
    · split at he
      · simp at he
      · split at he
        · -- force path
          simp only [] at he
          split at he
          · simp only [List.mem_singleton] at he
            exact Or.inr he
          · rw [show (if env.wait2.hadFiles ∧ (false : Bool) then
                preflightLoop main env.challenges2 env.preflightFail
              else (([], none) : List Event × Option OrcError)) = ([], none) by
                rw [if_neg]
                simp] at he
            simp only [] at he
            split at he <;>
              · simp only [List.mem_append, List.nil_append, List.mem_cons,
                  List.mem_singleton, List.not_mem_nil, or_false] at he
                tauto
        · simp at he

/-! ## C10 — no BIG-IP host: no pump, no upsert, no preflight -/

theorem installEvt_flags (p : IssueParams) (env : IssueEnv)
    (wdir main provider du ksp : String) :
    ∀ e ∈ (installPhase p env wdir main provider du ksp).1,
      e.isWatcherStart = false ∧ e.isDgUpsert = false ∧ e.isPreflight = false := by
  intro e he
  rcases installPhase_events p env wdir main provider du ksp e he with
    h | h | h | h | ⟨cid, chs, h⟩
  · subst h; exact ⟨rfl, rfl, rfl⟩
  · subst h; exact ⟨rfl, rfl, rfl⟩
  · subst h; exact ⟨rfl, rfl, rfl⟩
  · cases e <;> simp [Event.isInvCreate] at h ⊢ <;>
      simp [Event.isWatcherStart, Event.isDgUpsert, Event.isPreflight]
  · subst h; exact ⟨rfl, rfl, rfl⟩

/-- C10 (confirmed): with no `bigip_host`, `request_certificate` starts
no challenge-pump thread, issues no datagroup upsert, and performs no
preflight poll anywhere in its trace; and once the ACME runner has been
launched, if challenge files appear in the webroot the runner's exit is
awaited directly (`_finish` happens with no preflight in the whole
call). -/
theorem c10_no_bigip_no_pump_no_preflight (cfg : Config) (p : IssueParams)
    (env : IssueEnv) (h : truthy p.bigipHost = false) :
    (∀ e ∈ (requestCertificate cfg p env).1,
        e.isWatcherStart = false ∧ e.isDgUpsert = false ∧ e.isPreflight = false) ∧
    ((∃ argv, Event.runBg argv ∈ (requestCertificate cfg p env).1) →
        env.wait1.hadFiles = true →
        Event.finish ∈ (requestCertificate cfg p env).1) := by
  have hpre : ∀ e ∈ issuePreEvts cfg p env,
      e.isWatcherStart = false ∧ e.isDgUpsert = false ∧ e.isPreflight = false := by
    intro e he
    rw [issuePreEvts] at he
    rcases List.mem_append.mp he with he | he
    · rcases List.mem_append.mp he with he | he
      · rcases issueEabEvts_kinds p e he with ⟨path, hp⟩
        subst hp; exact ⟨rfl, rfl, rfl⟩
      · rw [issueWatcherEvts, if_neg (by simp [h])] at he
        simp at he
    · simp only [List.mem_singleton] at he
      subst he; exact ⟨rfl, rfl, rfl⟩
  have hwaitEvts : ∀ e ∈ (issueWait (p.domains.headD "") (truthy p.bigipHost)
      (issueDirectoryUrl p) (issueForceCmd cfg p env) env).1,
      e.isWatcherStart = false ∧ e.isDgUpsert = false ∧ e.isPreflight = false := by
    intro e he
    rw [h] at he
    rcases issueWait_noBigip_events _ _ _ env e he with hk | hk <;>
      (subst hk; exact ⟨rfl, rfl, rfl⟩)
  constructor
  · intro e he
    rcases requestCertificate_shape cfg p env with ⟨err, hs⟩ | ⟨err, hs⟩ |
      ⟨err, hw, hs⟩ | ⟨hw, hs⟩
    · rw [hs] at he
      simp at he
    · rw [hs] at he
      rcases issueEabEvts_kinds p e he with ⟨path, hp⟩
      subst hp; exact ⟨rfl, rfl, rfl⟩
    · rw [hs] at he
      rcases List.mem_append.mp he with he | he
      · exact hpre e he
      · exact hwaitEvts e he
    · rw [hs] at he
      rcases List.mem_append.mp he with he | he
      · rcases List.mem_append.mp he with he | he
        · exact hpre e he
        · exact hwaitEvts e he
      · exact installEvt_flags _ _ _ _ _ _ _ e he
  · intro ⟨argv, hargv⟩ hf
    have hwf := issueWait_hadFiles_noBigip (p.domains.headD "")
      (issueDirectoryUrl p) (issueForceCmd cfg p env) env hf
    rcases hwf with ⟨res, hwf⟩
    rcases requestCertificate_shape cfg p env with ⟨err, hs⟩ | ⟨err, hs⟩ |
      ⟨err, hw, hs⟩ | ⟨hw, hs⟩
    · rw [hs] at hargv
      simp at hargv
    · rw [hs] at hargv
      rcases issueEabEvts_kinds p _ hargv with ⟨path, hp⟩
      cases hp
    · rw [hs]
      rw [h, hwf] at hs ⊢
      simp
    · rw [hs]
      rw [h, hwf] at hs ⊢
      simp

/-- C10 witness: the theorem applied to a concrete call with no BIG-IP
host in which challenge files appear. -/
theorem c10_no_bigip_no_pump_no_preflight_witness :
    truthy issueParamsEx.bigipHost = false ∧
    ((∀ e ∈ (requestCertificate {} issueParamsEx
          { wait1 := ⟨true, none, "", ""⟩ }).1,
        e.isWatcherStart = false ∧ e.isDgUpsert = false ∧ e.isPreflight = false) ∧
      ((∃ argv, Event.runBg argv ∈ (requestCertificate {} issueParamsEx
            { wait1 := ⟨true, none, "", ""⟩ }).1) →
        ({ wait1 := ⟨true, none, "", ""⟩ } : IssueEnv).wait1.hadFiles = true →
        Event.finish ∈ (requestCertificate {} issueParamsEx
            { wait1 := ⟨true, none, "", ""⟩ }).1)) :=
  ⟨by decide,
    c10_no_bigip_no_pump_no_preflight {} issueParamsEx
      { wait1 := ⟨true, none, "", ""⟩ } (by decide)⟩

/-! ## C1 — preflight before `_finish` -/

/-- A successful issue run with no BIG-IP host in which challenge token
files are observed in the webroot. -/
def noBigipFilesEnvEx : IssueEnv :=
  { wait1 := ⟨true, none, "", ""⟩, challenges1 := [("TOK1", "TOK1.KA")],
    challengesFinal := [("TOK1", "TOK1.KA")] }

/-- C1 counterexample: an issue call with no `bigip_host` in which a
challenge token file is observed completes — `_finish()` is called and
the run succeeds — without a single Preflight poll anywhere in the
trace. -/
theorem c1_no_preflight_counterexample :
    noBigipFilesEnvEx.wait1.hadFiles = true ∧
    noBigipFilesEnvEx.challenges1 ≠ [] ∧
    Event.finish ∈ (requestCertificate {} issueParamsEx noBigipFilesEnvEx).1 ∧
    (∀ e ∈ (requestCertificate {} issueParamsEx noBigipFilesEnvEx).1,
      e.isPreflight = false) ∧
    (requestCertificate {} issueParamsEx noBigipFilesEnvEx).2 =
      .ok { certId := "cid", status := "issued", notBefore := none,
            notAfter := none, san := ["a.example.com"],
            provider := "lets-encrypt",
            directoryUrl := "https://acme-v02.api.letsencrypt.org/directory",
            http01Files := [("TOK1", "TOK1.KA")] } := by
  refine ⟨by decide, by decide, by decide, by decide, by decide⟩

/-- C1 (corrected): when a BIG-IP host is configured and challenge
token files are observed during the initial wait, every `_finish()` is
preceded by a Preflight poll of every observed token, and a Preflight
failure prevents `_finish()` from ever being called. -/
theorem c1_preflight_gates_finish (cfg : Config) (p : IssueParams)
    (env : IssueEnv) (hb : truthy p.bigipHost = true)
    (hf : env.wait1.hadFiles = true) :
    ((∀ ch ∈ env.challenges1, ch.1 ∉ env.preflightFail) →
      Event.finish ∈ (requestCertificate cfg p env).1 →
      ∃ pre suf, (requestCertificate cfg p env).1 = pre ++ Event.finish :: suf ∧
        ∀ ch ∈ env.challenges1,
          Event.preflight (p.domains.headD "") ch.1 ch.2 ∈ pre) ∧
    ((∃ ch ∈ env.challenges1, ch.1 ∈ env.preflightFail) →
      Event.finish ∉ (requestCertificate cfg p env).1) := by
  constructor
  · intro hok _
    have hpl := preflightLoop_all_ok (p.domains.headD "") env.challenges1
      env.preflightFail hok
    have hwf := issueWait_hadFiles_bigip (p.domains.headD "")
      (issueDirectoryUrl p) (issueForceCmd cfg p env) env hf
    rcases hwf with ⟨err, hple, hwf⟩ | ⟨hple, res, hwf⟩
    · rw [hpl] at hple
      cases hple
    · rw [hpl] at hwf
      simp only [] at hwf
      rcases requestCertificate_shape cfg p env with ⟨err, hs⟩ | ⟨err, hs⟩ |
        ⟨err, hw, hs⟩ | ⟨hw, hs⟩
      · rename_i hfin
        rw [hs] at hfin
        simp at hfin
      · rename_i hfin
        rw [hs] at hfin
        rcases issueEabEvts_kinds p _ hfin with ⟨path, hp⟩
        cases hp
      · rw [hb, hwf] at hs
        refine ⟨issuePreEvts cfg p env ++
          (env.challenges1.map fun ch =>
            Event.preflight (p.domains.headD "") ch.1 ch.2), [], ?_, ?_⟩
        · rw [hs]
          simp
        · intro ch hch
          exact List.mem_append_right _ (List.mem_map.mpr ⟨ch, hch, rfl⟩)
      · rw [hb, hwf] at hs
        refine ⟨issuePreEvts cfg p env ++
          (env.challenges1.map fun ch =>
            Event.preflight (p.domains.headD "") ch.1 ch.2),
          (installPhase p env (cfg.dirFor env.certId) (p.domains.headD "")
            p.provider (issueDirectoryUrl p) (p.keySecretPath.getD "")).1, ?_, ?_⟩
        · rw [hs]
          simp
        · intro ch hch
          exact List.mem_append_right _ (List.mem_map.mpr ⟨ch, hch, rfl⟩)
  · intro hfail hfin
    rcases preflightLoop_fail (p.domains.headD "") env.challenges1
      env.preflightFail hfail with ⟨err, hple⟩
    have hwf := issueWait_hadFiles_bigip (p.domains.headD "")
      (issueDirectoryUrl p) (issueForceCmd cfg p env) env hf
    rcases hwf with ⟨err2, _, hwf⟩ | ⟨hple2, res, hwf⟩
    · rcases requestCertificate_shape cfg p env with ⟨err3, hs⟩ | ⟨err3, hs⟩ |
        ⟨err3, hw, hs⟩ | ⟨hw, hs⟩
      · rw [hs] at hfin
        simp at hfin
      · rw [hs] at hfin
        rcases issueEabEvts_kinds p _ hfin with ⟨path, hp⟩
        cases hp
      · rw [hb, hwf] at hs
        rw [hs] at hfin
        rcases List.mem_append.mp hfin with hm | hm
        · exact (issuePreEvts_kind_facts cfg p env _ hm).2.1 rfl
        · exact (preflight_kind_facts (preflightLoop_events _ _ _ _ hm)).1 rfl
      · rw [hb, hwf] at hw
        cases hw
    · rw [hple2] at hple
      cases hple

/-- Concrete issue parameters with a BIG-IP host. -/
def bigipParamsEx : IssueParams :=
  { domains := ["a.example.com"], keySecretPath := some "tls/a.example.com",
    bigipHost := some "1.1.1.1" }

/-- C1 witness: the amended theorem applied to a concrete run with a
BIG-IP host, one observed token, and a successful preflight. -/
theorem c1_preflight_gates_finish_witness :
    truthy bigipParamsEx.bigipHost = true ∧
    noBigipFilesEnvEx.wait1.hadFiles = true ∧
    (((∀ ch ∈ noBigipFilesEnvEx.challenges1,
          ch.1 ∉ noBigipFilesEnvEx.preflightFail) →
        Event.finish ∈ (requestCertificate {} bigipParamsEx noBigipFilesEnvEx).1 →
        ∃ pre suf,
          (requestCertificate {} bigipParamsEx noBigipFilesEnvEx).1 =
            pre ++ Event.finish :: suf ∧
          ∀ ch ∈ noBigipFilesEnvEx.challenges1,
            Event.preflight (bigipParamsEx.domains.headD "") ch.1 ch.2 ∈ pre) ∧
      ((∃ ch ∈ noBigipFilesEnvEx.challenges1,
          ch.1 ∈ noBigipFilesEnvEx.preflightFail) →
        Event.finish ∉ (requestCertificate {} bigipParamsEx noBigipFilesEnvEx).1)) :=
  ⟨by decide, by decide,
    c1_preflight_gates_finish {} bigipParamsEx noBigipFilesEnvEx
      (by decide) (by decide)⟩

/-! ## Shape lemmas for the renew trace -/

theorem renewMid_events (a : RenewArgs) (rec : CertRec) (env : RenewEnv) :
    ∀ e ∈ (renewMid a rec env).1, e.isPreflight = true := by
  intro e he
  rw [renewMid] at he
  split at he
  · split at he
    · exact preflightLoop_events _ _ _ e he
    · simp at he
  · split at he
    · simp at he
    · split at he
      · simp at he
      · simp at he

theorem renewPreEvts_kind_facts (cfg : Config) (a : RenewArgs) (rec : CertRec)
    (env : RenewEnv) :
    ∀ e ∈ renewPreEvts cfg a rec env,
      e.isPreflight = false ∧ e ≠ Event.finish ∧ e.isInvCreate = false ∧
        e.isVaultWrite = false ∧ e.isInvMutation = false := by
  intro e he
  refine preEvt_kind_facts ?_
  rw [renewPreEvts] at he
  rcases List.mem_append.mp he with he | he
  · rcases List.mem_append.mp he with he | he
    · rw [renewWatcherEvts] at he
      split at he
      · rcases List.mem_cons.mp he with he | he
        · subst he
          exact Or.inr (Or.inl rfl)
        · rcases List.mem_map.mp he with ⟨x, _, hx⟩
          subst hx
          exact Or.inr (Or.inr (Or.inl rfl))
      · simp at he
    · rw [renewEabEvts] at he
      split at he
      · simp only [List.mem_singleton] at he
        exact Or.inl ⟨_, he⟩
      · simp at he
  · simp only [List.mem_singleton] at he
    exact Or.inr (Or.inr (Or.inr ⟨_, he⟩))

/-- The only process launch in a renew trace is the renew/migrate
command. -/
theorem renewPreEvts_runBg (cfg : Config) (a : RenewArgs) (rec : CertRec)
    (env : RenewEnv) :
    ∀ argv, Event.runBg argv ∈ renewPreEvts cfg a rec env →
      argv = renewCmd cfg a rec env := by
  intro argv he
  rw [renewPreEvts] at he
  rcases List.mem_append.mp he with he | he
  · rcases List.mem_append.mp he with he | he
    · rw [renewWatcherEvts] at he
      split at he
      · rcases List.mem_cons.mp he with he | he
        · cases he
        · rcases List.mem_map.mp he with ⟨x, _, hx⟩
          cases hx
      · simp at he
    · rw [renewEabEvts] at he
      split at he
      · simp only [List.mem_singleton] at he
        cases he
      · simp at he
  · simp only [List.mem_singleton, Event.runBg.injEq] at he
    exact he

/-- A successful run of the post-lookup renew body: every sub-step
succeeded and the trace is fully determined. -/
theorem renewWithRec_ok_shape (cfg : Config) (a : RenewArgs) (rec : CertRec)
    (env : RenewEnv) (r : RenewResult)
    (h : (renewWithRec cfg a rec env).2 = .ok r) :
    (renewMid a rec env).2 = none ∧
    (renewWithRec cfg a rec env).1 =
      renewPreEvts cfg a rec env ++ (renewMid a rec env).1 ++
        [.finish,
         .installCert (rec.path ++ "/privkey.pem")
           (rec.path ++ "/fullchain.pem") (rec.path ++ "/cert.pem"),
         .removeKey (rec.path ++ "/privkey.pem"),
         .invUpdateDates a.certId env.notBefore env.notAfter] ∧
    r = { certId := a.certId, status := "issued", notAfter := env.notAfter,
          directoryUrl := renewDirectoryUrl a rec } := by
  rw [renewWithRec] at h
  by_cases hc1 : truthy a.eabSecret = true ∧
      ¬(truthy (assocGet env.eabData "kid") = true ∧
        truthy (assocGet env.eabData "hmac_key") = true)
  · rw [if_pos hc1] at h
    cases h
  · rw [if_neg hc1] at h
    by_cases hc2 : eabMarker (env.wait1.err ++ env.wait1.out) = true
    · rw [if_pos hc2] at h
      cases h
    · rw [if_neg hc2] at h
      simp only [] at h
      revert h
      cases hmid : (renewMid a rec env).2 with
      | some err =>
          intro h
          cases h
      | none =>
          intro h
          by_cases hc3 : env.finish1.rc ≠ 0
          · rw [if_pos hc3] at h
            cases h
          · rw [if_neg hc3] at h
            by_cases hc4 : ¬env.installOk = true
            · rw [if_pos hc4] at h
              cases h
            · rw [if_neg hc4] at h
              by_cases hc5 : ¬env.parseOk = true
              · rw [if_pos hc5] at h
                cases h
              · rw [if_neg hc5] at h
                refine ⟨rfl, ?_, ?_⟩
                · rw [renewWithRec, if_neg hc1, if_neg hc2]
                  simp only []
                  rw [hmid]
                  simp only []
                  rw [if_neg hc3, if_neg hc4, if_neg hc5]
                · simp only [Except.ok.injEq] at h
                  exact h.symm

/-- A successful renew identifies its record and the full trace. -/
theorem renewCertificate_ok_shape (cfg : Config) (inv : List CertRec)
    (a : RenewArgs) (env : RenewEnv) (r : RenewResult)
    (h : (renewCertificate cfg inv a env).2 = .ok r) :
    ∃ rec, invGet inv a.certId = some rec ∧
      (renewMid a rec env).2 = none ∧
      (renewCertificate cfg inv a env).1 =
        renewPreEvts cfg a rec env ++ (renewMid a rec env).1 ++
          [.finish,
           .installCert (rec.path ++ "/privkey.pem")
             (rec.path ++ "/fullchain.pem") (rec.path ++ "/cert.pem"),
           .removeKey (rec.path ++ "/privkey.pem"),
           .invUpdateDates a.certId env.notBefore env.notAfter] ∧
      r = { certId := a.certId, status := "issued", notAfter := env.notAfter,
            directoryUrl := renewDirectoryUrl a rec } := by
  cases hrec : invGet inv a.certId with
  | none =>
      rw [renewCertificate, hrec] at h
      cases h
  | some rec =>
      rw [renewCertificate_some cfg env hrec] at h
      have hs := renewWithRec_ok_shape cfg a rec env r h
      refine ⟨rec, rfl, hs.1, ?_, hs.2.2⟩
      rw [renewCertificate_some cfg env hrec]
      exact hs.2.1

/-- The post-lookup renew body never writes to the secret store. -/
theorem renewWithRec_no_vault_write (cfg : Config) (a : RenewArgs)
    (rec : CertRec) (env : RenewEnv) :
    ∀ e ∈ (renewWithRec cfg a rec env).1, e.isVaultWrite = false := by
  intro e he
  have hpre : ∀ x ∈ renewPreEvts cfg a rec env, Event.isVaultWrite x = false :=
    fun x hx => (renewPreEvts_kind_facts cfg a rec env x hx).2.2.2.1
  have hmid : ∀ x ∈ (renewMid a rec env).1, Event.isVaultWrite x = false :=
    fun x hx => (preflight_kind_facts (renewMid_events a rec env x hx)).2.2.1
  rw [renewWithRec] at he
  split at he
  · rcases List.mem_append.mp he with he | he
    · rw [renewWatcherEvts] at he
      split at he
      · rcases List.mem_cons.mp he with he | he
        · subst he; rfl
        · rcases List.mem_map.mp he with ⟨x, _, hx⟩
          subst hx; rfl
      · simp at he
    · rw [renewEabEvts] at he
      split at he
      · simp only [List.mem_singleton] at he
        subst he; rfl
      · simp at he
  · split at he
    · exact hpre e he
    · simp only [] at he
      split at he
      · rcases List.mem_append.mp he with he | he
        · exact hpre e he
        · exact hmid e he
      · split at he
        · rcases List.mem_append.mp he with he | he
          · rcases List.mem_append.mp he with he | he
            · exact hpre e he
            · exact hmid e he
          · simp only [List.mem_singleton] at he
            subst he; rfl
        · split at he
          · rcases List.mem_append.mp he with he | he
            · rcases List.mem_append.mp he with he | he
              · exact hpre e he
              · exact hmid e he
            · simp only [List.mem_cons, List.not_mem_nil, or_false] at he
              rcases he with he | he <;> (subst he; rfl)
          · split at he
            · rcases List.mem_append.mp he with he | he
              · rcases List.mem_append.mp he with he | he
                · exact hpre e he
                · exact hmid e he
              · simp only [List.mem_cons, List.not_mem_nil, or_false] at he
                rcases he with he | he | he <;> (subst he; rfl)
            · rcases List.mem_append.mp he with he | he
              · rcases List.mem_append.mp he with he | he
                · exact hpre e he
                · exact hmid e he
              · simp only [List.mem_cons, List.not_mem_nil, or_false] at he
                rcases he with he | he | he | he <;> (subst he; rfl)

/-- A renew never writes to the secret store. -/
theorem renew_no_vault_write (cfg : Config) (inv : List CertRec)
    (a : RenewArgs) (env : RenewEnv) :
    ∀ e ∈ (renewCertificate cfg inv a env).1, e.isVaultWrite = false := by
  intro e he
  rw [renewCertificate] at he
  split at he
  · simp at he
  · exact renewWithRec_no_vault_write cfg a _ env e he

/-! ## C2 — install-step key handling -/

/-- A stored certificate record for the renew scenarios. -/
def renewRecEx : CertRec :=
  { certId := "cid", mainDomain := "a.example.com", san := ["a.example.com"],
    provider := "lets-encrypt",
    directoryUrl := "https://acme-v02.api.letsencrypt.org/directory",
    path := "/work/cid", keySecretPath := "tls/a.example.com",
    status := "issued" }

/-- A plain renew request (no provider change, no BIG-IP, no EAB). -/
def renewArgsEx : RenewArgs := { certId := "cid" }

/-- A renew environment in which challenge files appear and every
sub-step succeeds. -/
def renewEnvEx : RenewEnv := { wait1 := ⟨true, none, "", ""⟩ }

/-- C2 counterexample: a successful renew deletes `privkey.pem` from
disk without any secret-store write anywhere in its trace, so the
claimed "(b) write to the secret store before (c) delete" does not
happen on the renew path. -/
theorem c2_renew_skips_key_write_counterexample :
    (renewCertificate {} [renewRecEx] renewArgsEx renewEnvEx).2 =
      .ok { certId := "cid", status := "issued", notAfter := none,
            directoryUrl := "https://acme-v02.api.letsencrypt.org/directory" } ∧
    Event.removeKey "/work/cid/privkey.pem" ∈
      (renewCertificate {} [renewRecEx] renewArgsEx renewEnvEx).1 ∧
    (∀ e ∈ (renewCertificate {} [renewRecEx] renewArgsEx renewEnvEx).1,
      e.isVaultWrite = false) := by
  refine ⟨by decide, by decide, by decide⟩

/-- C2 (corrected): after a successful issue run, the install step
normalizes outputs into `cert.pem`/`fullchain.pem`/`privkey.pem` in the
working directory and then, in this order, reads and writes the private
key to the secret store at `key_secret_path` and deletes `privkey.pem`
(best effort) — the write strictly before the delete; after a successful
renew run, the install step normalizes outputs and then deletes
`privkey.pem` without any secret-store write in the whole call. -/
theorem c2_install_key_write_before_delete :
    (∀ (cfg : Config) (p : IssueParams) (env : IssueEnv) (r : IssueResult),
      (requestCertificate cfg p env).2 = .ok r →
      ∃ pre suf, (requestCertificate cfg p env).1 =
        pre ++ Event.installCert (cfg.dirFor env.certId ++ "/privkey.pem")
            (cfg.dirFor env.certId ++ "/fullchain.pem")
            (cfg.dirFor env.certId ++ "/cert.pem") ::
          Event.vaultWrite (p.keySecretPath.getD "") env.keyText ::
          Event.removeKey (cfg.dirFor env.certId ++ "/privkey.pem") :: suf) ∧
    (∀ (cfg : Config) (inv : List CertRec) (a : RenewArgs) (env : RenewEnv)
        (r : RenewResult),
      (renewCertificate cfg inv a env).2 = .ok r →
      (∃ rec pre suf, invGet inv a.certId = some rec ∧
        (renewCertificate cfg inv a env).1 =
          pre ++ Event.installCert (rec.path ++ "/privkey.pem")
              (rec.path ++ "/fullchain.pem") (rec.path ++ "/cert.pem") ::
            Event.removeKey (rec.path ++ "/privkey.pem") :: suf) ∧
      (∀ e ∈ (renewCertificate cfg inv a env).1, e.isVaultWrite = false)) := by
  constructor
  · intro cfg p env r h
    rcases requestCertificate_shape cfg p env with ⟨err, hs⟩ | ⟨err, hs⟩ |
      ⟨err, hw, hs⟩ | ⟨hw, hs⟩
    · rw [hs] at h
      cases h
    · rw [hs] at h
      cases h
    · rw [hs] at h
      cases h
    · have hins : (installPhase p env (cfg.dirFor env.certId) (p.domains.headD "")
          p.provider (issueDirectoryUrl p) (p.keySecretPath.getD "")).2 = .ok r := by
        rw [hs] at h
        exact h
      have hshape := installPhase_ok_shape p env (cfg.dirFor env.certId)
        (p.domains.headD "") p.provider (issueDirectoryUrl p)
        (p.keySecretPath.getD "") r hins
      refine ⟨issuePreEvts cfg p env ++
        (issueWait (p.domains.headD "") (truthy p.bigipHost) (issueDirectoryUrl p)
          (issueForceCmd cfg p env) env).1,
        Event.invCreate
          { certId := env.certId, mainDomain := p.domains.headD "",
            san := p.domains, provider := p.provider,
            directoryUrl := issueDirectoryUrl p, notBefore := env.notBefore,
            notAfter := env.notAfter, path := cfg.dirFor env.certId,
            keySecretPath := p.keySecretPath.getD "", tags := p.tags,
            status := "issued" } ::
          (if env.challengesFinal.isEmpty then []
           else [Event.invStoreChallenges env.certId env.challengesFinal]), ?_⟩
      rw [hs]
      simp only []
      rw [hshape.2.2.2]
  · intro cfg inv a env r h
    rcases renewCertificate_ok_shape cfg inv a env r h with
      ⟨rec, hrec, hmid, htrace, hr⟩
    refine ⟨⟨rec, renewPreEvts cfg a rec env ++ (renewMid a rec env).1 ++
        [Event.finish], [Event.invUpdateDates a.certId env.notBefore env.notAfter],
        hrec, ?_⟩, renew_no_vault_write cfg inv a env⟩
    rw [htrace]
    simp [List.append_assoc]

/-- C2 witness: the theorem applied to a concrete successful issue and
a concrete successful renew. -/
theorem c2_install_key_write_before_delete_witness :
    ((requestCertificate {} issueParamsEx noBigipFilesEnvEx).2 =
        .ok { certId := "cid", status := "issued", notBefore := none,
              notAfter := none, san := ["a.example.com"],
              provider := "lets-encrypt",
              directoryUrl := "https://acme-v02.api.letsencrypt.org/directory",
              http01Files := [("TOK1", "TOK1.KA")] } ∧
      (renewCertificate {} [renewRecEx] renewArgsEx renewEnvEx).2 =
        .ok { certId := "cid", status := "issued", notAfter := none,
              directoryUrl := "https://acme-v02.api.letsencrypt.org/directory" }) ∧
    (∃ pre suf, (requestCertificate {} issueParamsEx noBigipFilesEnvEx).1 =
      pre ++ Event.installCert "/work/cid/privkey.pem" "/work/cid/fullchain.pem"
          "/work/cid/cert.pem" ::
        Event.vaultWrite "tls/a.example.com" "KEY" ::
        Event.removeKey "/work/cid/privkey.pem" :: suf) ∧
    ((∃ rec pre suf, invGet [renewRecEx] "cid" = some rec ∧
      (renewCertificate {} [renewRecEx] renewArgsEx renewEnvEx).1 =
        pre ++ Event.installCert (rec.path ++ "/privkey.pem")
            (rec.path ++ "/fullchain.pem") (rec.path ++ "/cert.pem") ::
          Event.removeKey (rec.path ++ "/privkey.pem") :: suf) ∧
     (∀ e ∈ (renewCertificate {} [renewRecEx] renewArgsEx renewEnvEx).1,
        e.isVaultWrite = false)) :=
  ⟨⟨by decide, by decide⟩,
    c2_install_key_write_before_delete.1 {} issueParamsEx noBigipFilesEnvEx
      { certId := "cid", status := "issued", notBefore := none,
        notAfter := none, san := ["a.example.com"],
        provider := "lets-encrypt",
        directoryUrl := "https://acme-v02.api.letsencrypt.org/directory",
        http01Files := [("TOK1", "TOK1.KA")] } (by decide),
    c2_install_key_write_before_delete.2 {} [renewRecEx] renewArgsEx renewEnvEx
      { certId := "cid", status := "issued", notAfter := none,
        directoryUrl := "https://acme-v02.api.letsencrypt.org/directory" }
      (by decide)⟩

/-! ## C5 — migrate-CA on renew -/

/-- When the EAB-field validation passes, every exit of the renew body
has already launched the ACME process. -/
theorem renewWithRec_trace_has_runBg (cfg : Config) (a : RenewArgs)
    (rec : CertRec) (env : RenewEnv)
    (heab : ¬(truthy a.eabSecret = true ∧
      ¬(truthy (assocGet env.eabData "kid") = true ∧
        truthy (assocGet env.eabData "hmac_key") = true))) :
    Event.runBg (renewCmd cfg a rec env) ∈ (renewWithRec cfg a rec env).1 := by
  have hpre : Event.runBg (renewCmd cfg a rec env) ∈ renewPreEvts cfg a rec env := by
    rw [renewPreEvts]
    exact List.mem_append_right _ (List.mem_singleton.mpr rfl)
  rw [renewWithRec, if_neg heab]
  split
  · exact hpre
  · simp only []
    split
    · exact List.mem_append.mpr (Or.inl hpre)
    · split
      · exact List.mem_append.mpr (Or.inl (List.mem_append.mpr (Or.inl hpre)))
      · split
        · exact List.mem_append.mpr (Or.inl (List.mem_append.mpr (Or.inl hpre)))
        · split
          · exact List.mem_append.mpr (Or.inl (List.mem_append.mpr (Or.inl hpre)))
          · exact List.mem_append.mpr (Or.inl (List.mem_append.mpr (Or.inl hpre)))

/-- Migration arguments: the caller supplies the Google directory while
the stored record carries the Let's Encrypt directory. -/
def migrateArgsEx : RenewArgs :=
  { certId := "cid",
    directoryUrl := some "https://dv.acme-v02.api.pki.goog/directory" }

/-- C5 counterexample: on a migrate-CA renew the ACME argv is
`--issue --server <new>` as claimed, the call succeeds, but the
inventory record's `directory_url` is left unchanged at the old value —
the update the claim promises never happens (`update_dates` touches only
the validity dates). -/
theorem c5_inventory_directory_not_updated_counterexample :
    (renewCertificate {} [renewRecEx] migrateArgsEx renewEnvEx).2 =
      .ok { certId := "cid", status := "issued", notAfter := none,
            directoryUrl := "https://dv.acme-v02.api.pki.goog/directory" } ∧
    Event.runBg ["/usr/local/bin/acme.sh", "--home", "/opt/acme", "--issue",
        "--server", "https://dv.acme-v02.api.pki.goog/directory", "--keylength",
        "ec-256", "-d", "a.example.com", "-w", "/work/cid/webroot"] ∈
      (renewCertificate {} [renewRecEx] migrateArgsEx renewEnvEx).1 ∧
    (invGet (applyTrace [renewRecEx]
        (renewCertificate {} [renewRecEx] migrateArgsEx renewEnvEx).1)
        "cid").map CertRec.directoryUrl =
      some "https://acme-v02.api.letsencrypt.org/directory" ∧
    ("https://acme-v02.api.letsencrypt.org/directory" : String) ≠
      "https://dv.acme-v02.api.pki.goog/directory" := by
  refine ⟨by decide, by decide, by decide, by decide⟩

/-- C5 (corrected): on a renew whose caller-supplied `directory_url` is
non-empty, differs from the non-empty stored one, and no EAB secret is
involved, the ACME argv is the migrate command `--issue --server <new>`
(never `--renew`), the launch of exactly that argv is in the trace, and
on success the response carries the new directory URL while the
inventory record keeps its old `directory_url` (only the dates are
updated). -/
theorem c5_migrate_ca_uses_issue (cfg : Config) (inv : List CertRec)
    (a : RenewArgs) (env : RenewEnv) (rec : CertRec) (du : String)
    (hrec : invGet inv a.certId = some rec)
    (hdu : a.directoryUrl = some du) (hne : du ≠ "")
    (hprev : renewPrevDir rec ≠ "") (hdiff : du ≠ renewPrevDir rec)
    (heab : a.eabSecret = none) :
    renewCmd cfg a rec env =
      cfg.acme ["--issue", "--server", du, "--keylength", "ec-256"] ++
        domainWebrootArgs (renewSan rec) (renewWebroot rec) ++
        emailArgsOf a.accountEmails ∧
    (renewCmd cfg a rec env).take 6 =
      [cfg.acmeSh, "--home", cfg.acmeHome, "--issue", "--server", du] ∧
    Event.runBg (renewCmd cfg a rec env) ∈ (renewCertificate cfg inv a env).1 ∧
    (∀ r, (renewCertificate cfg inv a env).2 = .ok r →
      r.directoryUrl = du ∧
      invGet (applyTrace inv (renewCertificate cfg inv a env).1) a.certId =
        some { rec with notBefore := env.notBefore, notAfter := env.notAfter }) := by
  have hdu' : renewDirectoryUrl a rec = du := by
    rw [renewDirectoryUrl, if_pos (by rw [hdu]; simp [truthy, hne]), hdu]
    rfl
  have hmig : renewMigrate a rec := by
    refine ⟨?_, hprev, ?_⟩
    · rw [hdu']
      exact hne
    · rw [hdu']
      exact hdiff
  have hcmd : renewCmd cfg a rec env =
      cfg.acme ["--issue", "--server", du, "--keylength", "ec-256"] ++
        domainWebrootArgs (renewSan rec) (renewWebroot rec) ++
        emailArgsOf a.accountEmails := by
    rw [renewCmd, if_pos hmig, hdu', eabArgsOf, if_neg (by simp [heab, truthy])]
    simp
  have heab2 : ¬(truthy a.eabSecret = true ∧
      ¬(truthy (assocGet env.eabData "kid") = true ∧
        truthy (assocGet env.eabData "hmac_key") = true)) := by
    simp [heab, truthy]
  refine ⟨hcmd, ?_, ?_, ?_⟩
  · rw [hcmd, Config.acme]
    rfl
  · rw [renewCertificate_some cfg env hrec]
    exact renewWithRec_trace_has_runBg cfg a rec env heab2
  · intro r hr
    rcases renewCertificate_ok_shape cfg inv a env r hr with
      ⟨rec2, hrec2, hmid2, htrace, hrres⟩
    rw [hrec] at hrec2
    injection hrec2 with hrec2
    subst hrec2
    constructor
    · rw [hrres, hdu']
    · have hpre0 : applyTrace inv (renewPreEvts cfg a rec env) = inv :=
        applyTrace_neutral (fun e he =>
          (renewPreEvts_kind_facts cfg a rec env e he).2.2.2.2)
      have hmid0 : applyTrace inv (renewMid a rec env).1 = inv :=
        applyTrace_neutral (fun e he =>
          (preflight_kind_facts (renewMid_events a rec env e he)).2.2.2.1)
      rw [htrace, applyTrace_append, applyTrace_append, hpre0, hmid0]
      rw [show applyTrace inv
          [Event.finish,
           Event.installCert (rec.path ++ "/privkey.pem")
             (rec.path ++ "/fullchain.pem") (rec.path ++ "/cert.pem"),
           Event.removeKey (rec.path ++ "/privkey.pem"),
           Event.invUpdateDates a.certId env.notBefore env.notAfter] =
          applyEvent inv
            (Event.invUpdateDates a.certId env.notBefore env.notAfter) from rfl]
      rw [invGet_applyUpdateDates, hrec]
      rfl

/-- C5 witness: the amended theorem applied to the concrete migrate
scenario (stored Let's Encrypt, caller-supplied Google). -/
theorem c5_migrate_ca_uses_issue_witness :
    (invGet [renewRecEx] "cid" = some renewRecEx ∧
      migrateArgsEx.directoryUrl =
        some "https://dv.acme-v02.api.pki.goog/directory" ∧
      renewPrevDir renewRecEx ≠ "" ∧
      ("https://dv.acme-v02.api.pki.goog/directory" : String) ≠
        renewPrevDir renewRecEx ∧ migrateArgsEx.eabSecret = none) ∧
    (renewCmd {} migrateArgsEx renewRecEx renewEnvEx =
      Config.acme {} ["--issue", "--server",
          "https://dv.acme-v02.api.pki.goog/directory", "--keylength",
          "ec-256"] ++
        domainWebrootArgs (renewSan renewRecEx) (renewWebroot renewRecEx) ++
        emailArgsOf migrateArgsEx.accountEmails ∧
    (renewCmd {} migrateArgsEx renewRecEx renewEnvEx).take 6 =
      [Config.acmeSh {}, "--home", Config.acmeHome {}, "--issue", "--server",
        "https://dv.acme-v02.api.pki.goog/directory"] ∧
    Event.runBg (renewCmd {} migrateArgsEx renewRecEx renewEnvEx) ∈
      (renewCertificate {} [renewRecEx] migrateArgsEx renewEnvEx).1 ∧
    (∀ r, (renewCertificate {} [renewRecEx] migrateArgsEx renewEnvEx).2 =
        .ok r →
      r.directoryUrl = "https://dv.acme-v02.api.pki.goog/directory" ∧
      invGet (applyTrace [renewRecEx]
          (renewCertificate {} [renewRecEx] migrateArgsEx renewEnvEx).1)
          "cid" =
        some { renewRecEx with notBefore := none, notAfter := none })) :=
  ⟨⟨by decide, by decide, by decide, by decide, by decide⟩,
    c5_migrate_ca_uses_issue {} [renewRecEx] migrateArgsEx renewEnvEx
      renewRecEx "https://dv.acme-v02.api.pki.goog/directory" (by decide)
      (by decide) (by decide) (by decide) (by decide) (by decide)⟩

end Mcp

